import Mathlib

/-!
# provider-cards: the in-memory deck controller

A shallow embedding of `internal/controller/card/card.go` and of the resource
type in `apis/card/v1alpha1/card_types.go`.

* Go slices are lists; the package-level map `decks` is a function from deck
  names to optional entries, and a read of a missing key gives the zero deck.
* Functions that read or write the package-level state take it as an argument
  and return the new value next to their Go return value.
* A Go `error` result is `Except String Unit` (`.ok ()` is `nil`); a run-time
  fault (index out of range) is `none`.
* `math/rand`, `encoding/json` and the Kubernetes client are not part of the
  repository: they are parameters (`Env`, the fields of `connector`).
-/

namespace Cards

/-! ## Data model (`card_types.go`) -/

/-- CardObservation are the observable fields of a Card. -/
structure CardObservation where
  Suit : String := ""
  Rank : String := ""
  Face : String := ""
deriving DecidableEq, Repr

/-- Modelled from the spec: the framework's `xpv1.Reference`; only its name is
read by the controller. -/
structure Reference where
  Name : String := ""
deriving DecidableEq, Repr

/-- Modelled from the spec: the framework's `xpv1.Condition` without its
transition time; `Kind` stands for the Go field `Type`. -/
structure Condition where
  Kind : String := ""
  Status : String := ""
  Reason : String := ""
deriving DecidableEq, Repr

/-- The condition built by `xpv1.Available()`. -/
def Available : Condition := { Kind := "Ready", Status := "True", Reason := "Available" }

/-- CardSpec: the embedded `xpv1.ResourceSpec` is reduced to the provider-config
reference, which the controller uses as the deck name (the reference is taken to
be set, as the API default guarantees). -/
structure CardSpec where
  ProviderConfigReference : Reference := {}
deriving DecidableEq, Repr

/-- CardStatus: the embedded `xpv1.ResourceStatus` is its list of conditions. -/
structure CardStatus where
  Conditions : List Condition := []
  AtProvider : CardObservation := {}
deriving DecidableEq, Repr

/-- A Card is the managed resource; the deck stores values of the same type. -/
structure Card where
  Spec : CardSpec := {}
  Status : CardStatus := {}
deriving DecidableEq, Repr

/-- The method `GetProviderConfigReference` followed by `.Name`. -/
def Card.deckName (cr : Card) : String := cr.Spec.ProviderConfigReference.Name

/-- Modelled from the spec: the framework's `SetConditions` for one condition:
a condition of the same type is replaced in place, otherwise the new one is
appended. -/
def Card.SetConditions (cr : Card) (c : Condition) : Card :=
  let cs := cr.Status.Conditions
  let cs' := if cs.any (fun e => e.Kind == c.Kind)
    then cs.map (fun e => if e.Kind == c.Kind then c else e)
    else cs ++ [c]
  { cr with Status := { cr.Status with Conditions := cs' } }

/-- The value behind a `resource.Managed` interface: a Card, or any other kind
(for which the type assertion in each method fails). -/
inductive Managed where
  | ofCard (cr : Card)
  | other
deriving DecidableEq, Repr

/-! ## Package state (`card.go`) -/

/-- Byte strings (Go `[]byte`). -/
abbrev Bytes := List UInt8

/-- The conversion `[]byte(s)` of a string to its UTF-8 bytes. -/
def bytesOf (s : String) : Bytes := s.toUTF8.data.toList

/-- The JSON credentials payload. -/
structure cardCredentials where
  Seed : Int := 0
deriving DecidableEq, Repr

/-- One registry entry. -/
structure deck where
  Cards : List Card := []
  Credentials : Bytes := []
deriving DecidableEq, Repr

/-- The package-level variable `decks`, a `map[string]deck`. -/
abbrev Decks := String → Option deck

/-- The map created by `make(map[string]deck)`. -/
def Decks.empty : Decks := fun _ => none

/-- The Go expression `decks[name]`: the stored entry, or the zero deck. -/
def Decks.lookup (decks : Decks) (name : String) : deck := (decks name).getD {}

/-- The Go statement `decks[name] = d`. -/
def Decks.store (decks : Decks) (name : String) (d : deck) : Decks :=
  fun k => if k = name then some d else decks k

/-- The library functions the controller calls: the default source of
`math/rand` (`rand.Seed`, `rand.Intn`, with the documented range of `Intn`) and
`json.Unmarshal` into a `cardCredentials`. -/
structure Env where
  RandState : Type
  Seed : Int → RandState
  Intn : RandState → Nat → Nat × RandState
  Intn_lt : ∀ s n, 0 < n → (Intn s n).1 < n
  Unmarshal : Bytes → Except String cardCredentials

def errNotCard : String := "managed resource is not a Card custom resource"
def errTrackPCUsage : String := "cannot track ProviderConfig usage"
def errGetPC : String := "cannot get ProviderConfig"
def errGetCreds : String := "cannot get credentials"
def errNewClient : String := "cannot create new Service"

/-- The error of `errors.New("no cards found")` in `cardClient`. -/
def errNoCards : String := "no cards found"

/-- The function `errors.Wrap`: the message is put in front of the cause. -/
def wrap (err : String) (msg : String) : String := msg ++ ": " ++ err

def suits : List String := ["♠", "♥", "♦", "♣"]
def ranks : List String := ["2", "3", "4", "5", "6", "7", "8", "9", "10", "J", "Q", "K", "A"]

/-- The composite literal `newCard` in `deckClient`. -/
def newCard (suit rank : String) : Card :=
  { Status := { AtProvider := { Suit := suit, Rank := rank, Face := suit ++ rank } } }

/-- The nested `range` loops of `deckClient` that append one card per suit and
rank. -/
def freshCards : List Card :=
  suits.foldl (fun cards suit =>
    ranks.foldl (fun cards rank => cards ++ [newCard suit rank]) cards) []

/-- The assignment `cards[i], cards[j] = cards[j], cards[i]`; both indices are
in range in every call made by `shuffle`. -/
def swap (cards : List Card) (i j : Nat) : List Card :=
  match cards[i]?, cards[j]? with
  | some a, some b => (cards.set i b).set j a
  | _, _ => cards

/-- One iteration of the shuffle loop at index `i`. -/
def shuffleStep (E : Env) (acc : List Card × E.RandState) (i : Nat) :
    List Card × E.RandState :=
  let r := E.Intn acc.2 (i + 1)
  (swap acc.1 i r.1, r.2)

/-- The loop `for i := range cards` of `deckClient`, from the source state `s`. -/
def shuffle (E : Env) (cards : List Card) (s : E.RandState) : List Card × E.RandState :=
  (List.range cards.length).foldl (shuffleStep E) (cards, s)

/-- The function `deckClient`: builds and shuffles the deck of `name` unless it
has cards. -/
def deckClient (E : Env) (name : String) (creds : Bytes) (decks : Decks)
    (rng : E.RandState) : Except String Unit × Decks × E.RandState :=
  let d : deck := match decks name with
    | some d0 => d0
    | none => {}
  if d.Cards.length ≠ 0 then (.ok (), decks, rng)
  else
    match E.Unmarshal creds with
    | .error err => (.error err, decks, rng)
    | .ok cc =>
      let r := shuffle E freshCards (E.Seed cc.Seed)
      (.ok (), decks.store name { d with Cards := r.1 }, r.2)

/-- The function `cardClient`: fails on a deck without cards, otherwise stores
the deck without the cards of the given face. -/
def cardClient (face : String) (deckName : String) (decks : Decks) :
    Except String Unit × Decks :=
  let deckCards := (decks.lookup deckName).Cards
  if deckCards.length = 0 then (.error errNoCards, decks)
  else
    let newCards := deckCards.foldl
      (fun acc card => if card.Status.AtProvider.Face ≠ face then acc ++ [card] else acc) []
    (.ok (), decks.store deckName { Cards := newCards })

/-! ## The connector and the external client -/

/-- Modelled from the spec: the provider configuration fetched from the API
server: its name and an opaque description of where its credentials live. -/
structure ProviderConfig where
  Name : String := ""
  Credentials : String := ""
deriving DecidableEq, Repr

/-- The struct `connector`, with the framework calls it makes taken as fields:
`usage.Track`, `kube.Get` of a provider configuration by name (the object
returned carries the name it was asked for), the credential extractor, and
`newServiceFn`. -/
structure connector where
  usage : Managed → Except String Unit
  kube : String → Except String ProviderConfig
  kube_name : ∀ n pc, kube n = .ok pc → pc.Name = n
  extract : ProviderConfig → Except String Bytes
  newServiceFn : Bytes → Except String Unit

/-- The service constructor `newNoOpService`, which never fails. -/
def newNoOpService : Bytes → Except String Unit := fun _ => .ok ()

/-- The fields of `managed.ExternalObservation` that `Observe` sets. -/
structure ExternalObservation where
  ResourceExists : Bool := false
  ResourceUpToDate : Bool := false
  ConnectionDetails : List (String × Bytes) := []
deriving DecidableEq, Repr

/-- The struct `managed.ExternalCreation`. -/
structure ExternalCreation where
  ConnectionDetails : List (String × Bytes) := []
deriving DecidableEq, Repr

/-- The struct `managed.ExternalUpdate`. -/
structure ExternalUpdate where
  ConnectionDetails : List (String × Bytes) := []
deriving DecidableEq, Repr

/-- The method `connector.Connect`; the client it returns carries no state, so
the result is the error alone, next to the package state. -/
def connector.Connect (E : Env) (c : connector) (mg : Managed) (decks : Decks)
    (rng : E.RandState) : Except String Unit × Decks × E.RandState :=
  match mg with
  | .other => (.error errNotCard, decks, rng)
  | .ofCard cr =>
    match c.usage mg with
    | .error err => (.error (wrap err errTrackPCUsage), decks, rng)
    | .ok _ =>
      match c.kube cr.deckName with
      | .error err => (.error (wrap err errGetPC), decks, rng)
      | .ok pc =>
        match c.extract pc with
        | .error err => (.error (wrap err errGetCreds), decks, rng)
        | .ok data =>
          match c.newServiceFn data with
          | .error err => (.error (wrap err errNewClient), decks, rng)
          | .ok _ =>
            match deckClient E pc.Name data decks rng with
            | (.error err, decks', rng') => (.error (wrap err errNewClient), decks', rng')
            | (.ok _, decks', rng') => (.ok (), decks', rng')

/-- The method `external.Observe`. -/
def external.Observe (mg : Managed) (decks : Decks) :
    Except String ExternalObservation × Managed × Decks :=
  match mg with
  | .other => (.error errNotCard, mg, decks)
  | .ofCard cr =>
    if cr.Status.AtProvider.Face = "" then
      (.ok { ResourceExists := false }, mg, decks)
    else
      let deckName := cr.deckName
      match cardClient cr.Status.AtProvider.Face deckName decks with
      | (.error err, decks') => (.error err, mg, decks')
      | (.ok _, decks') =>
        (.ok { ResourceExists := true, ResourceUpToDate := true, ConnectionDetails := [] },
          .ofCard (cr.SetConditions Available), decks')

/-- The method `external.Create`; `none` is the index-out-of-range fault of
`thisDeck.Cards[0]` on a deck without cards. -/
def external.Create (mg : Managed) (decks : Decks) :
    Option (Except String ExternalCreation × Managed × Decks) :=
  match mg with
  | .other => some (.error errNotCard, mg, decks)
  | .ofCard cr =>
    let deckName := cr.deckName
    let thisDeck := decks.lookup deckName
    match thisDeck.Cards with
    | [] => none
    | first :: rest =>
      let cr' : Card := { cr with Status := { cr.Status with AtProvider := first.Status.AtProvider } }
      let thisDeck' : deck := { thisDeck with Cards := rest }
      some (.ok { ConnectionDetails := [("Face", bytesOf cr'.Status.AtProvider.Face)] },
        .ofCard cr', decks.store deckName thisDeck')

/-- The method `external.Update`. -/
def external.Update (mg : Managed) (decks : Decks) :
    Except String ExternalUpdate × Managed × Decks :=
  match mg with
  | .other => (.error errNotCard, mg, decks)
  | .ofCard _ => (.ok { ConnectionDetails := [] }, mg, decks)

/-- The method `external.Delete`. -/
def external.Delete (mg : Managed) (decks : Decks) : Except String Unit × Managed × Decks :=
  match mg with
  | .other => (.error errNotCard, mg, decks)
  | .ofCard cr =>
    let disCard : Card := { Status := { AtProvider := cr.Status.AtProvider } }
    let cr' : Card := { cr with Status := { cr.Status with AtProvider := {} } }
    let deckName := cr.Spec.ProviderConfigReference.Name
    let disCards := (decks.lookup deckName).Cards ++ [disCard]
    let disDeck : deck := { Cards := disCards }
    (.ok (), .ofCard cr', decks.store deckName disDeck)

/-- A resource bound to the deck `name` that has not been dealt a card. -/
def unallocated (name : String) : Card :=
  { Spec := { ProviderConfigReference := { Name := name } } }

/-- A resource bound to the deck `name` that holds the card of `suit` and `rank`. -/
def holding (name suit rank : String) : Card :=
  { Spec := { ProviderConfigReference := { Name := name } },
    Status := { AtProvider := { Suit := suit, Rank := rank, Face := suit ++ rank } } }

/-- A small instance of the library parameters: a linear congruential source,
and a payload reader that fails on the empty payload and otherwise takes the
first byte as the seed. -/
def demoEnv : Env where
  RandState := Nat
  Seed := fun seed => seed.toNat
  Intn := fun s n => (s % n, (s * 1103515245 + 12345) % 2147483648)
  Intn_lt := fun _ _ h => Nat.mod_lt _ h
  Unmarshal := fun b =>
    match b with
    | [] => .error "unexpected end of JSON input"
    | x :: _ => .ok { Seed := (x.toNat : Int) }

/-! ## The lifecycle as a transition system -/

/-- The state the lifecycle methods act on: the package state and the managed
resources, which the framework keeps and hands to the methods one at a time. -/
structure World (E : Env) where
  decks : Decks
  rand : E.RandState
  resources : List Managed

/-- One call made by the framework on the resource at position `i`. -/
inductive Action where
  | connect (c : connector) (i : Nat)
  | observe (i : Nat)
  | create (i : Nat)
  | update (i : Nat)
  | delete (i : Nat)

/-- The world after one call; `none` when there is no such resource or the call
ends in a run-time fault. -/
def step (E : Env) (w : World E) : Action → Option (World E)
  | .connect c i =>
    match w.resources[i]? with
    | none => none
    | some mg =>
      let r := c.Connect E mg w.decks w.rand
      some { w with decks := r.2.1, rand := r.2.2 }
  | .observe i =>
    match w.resources[i]? with
    | none => none
    | some mg =>
      let r := external.Observe mg w.decks
      some { w with decks := r.2.2, resources := w.resources.set i r.2.1 }
  | .create i =>
    match w.resources[i]? with
    | none => none
    | some mg =>
      match external.Create mg w.decks with
      | none => none
      | some r => some { w with decks := r.2.2, resources := w.resources.set i r.2.1 }
  | .update i =>
    match w.resources[i]? with
    | none => none
    | some mg =>
      let r := external.Update mg w.decks
      some { w with decks := r.2.2, resources := w.resources.set i r.2.1 }
  | .delete i =>
    match w.resources[i]? with
    | none => none
    | some mg =>
      let r := external.Delete mg w.decks
      some { w with decks := r.2.2, resources := w.resources.set i r.2.1 }

/-- The world after a sequence of calls. -/
def run (E : Env) (w : World E) : List Action → Option (World E)
  | [] => some w
  | a :: as =>
    match step E w a with
    | none => none
    | some w' => run E w' as

/-- A resource that has not been dealt a card: its observed fields are empty. -/
def Managed.unallocated : Managed → Prop
  | .ofCard cr => cr.Status.AtProvider = {}
  | .other => True

/-- The worlds reached from the empty registry and unallocated resources by
calls that satisfy `guard` in the world they are made in. -/
inductive ReachableBy (E : Env) (guard : World E → Action → Prop) : World E → Prop where
  | init (rng : E.RandState) (resources : List Managed)
      (h : ∀ mg ∈ resources, mg.unallocated) :
      ReachableBy E guard { decks := Decks.empty, rand := rng, resources := resources }
  | step (w w' : World E) (a : Action) (hw : ReachableBy E guard w) (hg : guard w a)
      (hs : step E w a = some w') : ReachableBy E guard w'

/-- The worlds reached by Connect, Observe, Create, Update and Delete calls. -/
def Reachable (E : Env) : World E → Prop := ReachableBy E (fun _ _ => True)

/-- The face a resource holds of the deck `name`, if it is bound to that deck
and has been dealt a card. -/
def heldFace (name : String) : Managed → Option String
  | .ofCard cr =>
    if cr.deckName = name ∧ cr.Status.AtProvider.Face ≠ "" then some cr.Status.AtProvider.Face
    else none
  | .other => none

/-- The faces held by the resources bound to the deck `name`. -/
def heldFaces (name : String) (resources : List Managed) : List String :=
  resources.filterMap (heldFace name)

/-- The faces of the undealt cards of the deck `name`. -/
def deckFaces (decks : Decks) (name : String) : List String :=
  (decks.lookup name).Cards.map (fun c => c.Status.AtProvider.Face)

/-- No face occurs twice among the undealt cards of a deck together with the
cards held by the resources bound to its name. -/
def NoDuplicateFace {E : Env} (w : World E) : Prop :=
  ∀ name, (deckFaces w.decks name ++ heldFaces name w.resources).Nodup

/-- The calls of a disciplined run: Connect meets a deck without cards only
while no resource bound to that name holds a card, and Delete is made only on a
resource with a non-empty face. -/
def guarded {E : Env} (w : World E) : Action → Prop
  | .connect _ i => ∀ cr, w.resources[i]? = some (.ofCard cr) →
      (w.decks.lookup cr.deckName).Cards = [] → heldFaces cr.deckName w.resources = []
  | .delete i => ∀ cr, w.resources[i]? = some (.ofCard cr) → cr.Status.AtProvider.Face ≠ ""
  | _ => True

/-- A connector whose framework calls all succeed and whose credentials carry
the seed 42. -/
def demoConnector : connector where
  usage := fun _ => .ok ()
  kube := fun n => .ok { Name := n }
  kube_name := fun n pc h => by cases h; rfl
  extract := fun _ => .ok [42]
  newServiceFn := newNoOpService

/-- One reconcile pass that deals a card to the resource at position `i`. -/
def dealPass (i : Nat) : List Action :=
  [.connect demoConnector i, .observe i, .create i]

/-- Fifty-two unallocated resources bound to the deck `d`, and no deck. -/
def demoWorld : World demoEnv :=
  { decks := Decks.empty, rand := (0 : Nat),
    resources := List.replicate 52 (.ofCard (unallocated "d")) }

/-- A deal pass for each of the 52 resources, then the Connect of the next pass. -/
def demoActions : List Action :=
  (List.range 52).flatMap dealPass ++ [.connect demoConnector 0]

/-- Two unallocated resources bound to the deck `d`, and no deck. -/
def demoPair : World demoEnv :=
  { decks := Decks.empty, rand := (0 : Nat),
    resources := [.ofCard (unallocated "d"), .ofCard (unallocated "d")] }

/-- Successive `Create` calls, one for each resource of the list, each on the
registry left by the call before: the observed fields they record, in order, and
the last registry; `none` when a call faults or returns an error. -/
def deals (decks : Decks) : List Card → Option (List CardObservation × Decks)
  | [] => some ([], decks)
  | cr :: crs =>
    match external.Create (.ofCard cr) decks with
    | some (.ok _, .ofCard cr', decks') =>
      match deals decks' crs with
      | some (os, decks'') => some (cr'.Status.AtProvider :: os, decks'')
      | none => none
    | _ => none

/-- The same library functions with a record of the calls of `rand.Intn`: the
state of the source carries the bounds `n` passed to `Intn` so far, oldest
first, and `rand.Seed` starts an empty record. -/
def Env.logged (E : Env) : Env where
  RandState := E.RandState × List Nat
  Seed := fun seed => (E.Seed seed, [])
  Intn := fun s n => ((E.Intn s.1 n).1, ((E.Intn s.1 n).2, s.2 ++ [n]))
  Intn_lt := fun s n h => E.Intn_lt s.1 n h
  Unmarshal := E.Unmarshal

/-- The observed fields of the 52 cards of the universe. -/
def cardUniverse : List CardObservation := freshCards.map (fun c => c.Status.AtProvider)

/-- The faces of the 52-card universe: one for each suit and rank. -/
def universeFaces : List String := (List.product suits ranks).map (fun p => p.1 ++ p.2)

/-- A resource as the data model allows it: it holds no card (its face is
empty) or a card of the universe. -/
def Managed.wellFormed : Managed → Prop
  | .ofCard cr => cr.Status.AtProvider.Face = "" ∨ cr.Status.AtProvider ∈ cardUniverse
  | .other => True

/-- The worlds reached from the empty registry by calls of `deckClient`
(materialize), `cardClient` (validate), `Create` (deal) and `Delete` (discard),
the last on resources whose face is non-empty. -/
inductive PoolReachable (E : Env) : World E → Prop where
  | init (rng : E.RandState) (resources : List Managed)
      (h : ∀ mg ∈ resources, mg.wellFormed) :
      PoolReachable E { decks := Decks.empty, rand := rng, resources := resources }
  | materialize (w : World E) (name : String) (creds : Bytes) (hw : PoolReachable E w) :
      PoolReachable E { w with
        decks := (deckClient E name creds w.decks w.rand).2.1,
        rand := (deckClient E name creds w.decks w.rand).2.2 }
  | validate (w : World E) (face name : String) (hw : PoolReachable E w) :
      PoolReachable E { w with decks := (cardClient face name w.decks).2 }
  | deal (w : World E) (i : Nat) (mg : Managed)
      (r : Except String ExternalCreation × Managed × Decks) (hw : PoolReachable E w)
      (hi : w.resources[i]? = some mg) (hc : external.Create mg w.decks = some r) :
      PoolReachable E { w with decks := r.2.2, resources := w.resources.set i r.2.1 }
  | discard (w : World E) (i : Nat) (cr : Card) (hw : PoolReachable E w)
      (hi : w.resources[i]? = some (.ofCard cr)) (hf : cr.Status.AtProvider.Face ≠ "") :
      PoolReachable E { w with
        decks := (external.Delete (.ofCard cr) w.decks).2.2,
        resources := w.resources.set i (external.Delete (.ofCard cr) w.decks).2.1 }

/-! ## Theorems -/

/-! ### The shuffle and the fresh deck -/

theorem swap_perm (cards : List Card) (i j : Nat) : (swap cards i j).Perm cards := by
  unfold swap
  split
  · rename_i a b ha hb
    obtain ⟨hi, rfl⟩ := List.getElem?_eq_some.mp ha
    obtain ⟨hj, rfl⟩ := List.getElem?_eq_some.mp hb
    rw [List.perm_iff_count]
    intro c
    have hj' : j < (cards.set i cards[j]).length := by simpa using hj
    rw [List.count_set _ _ _ _ hj', List.count_set _ _ _ _ hi]
    have h1 : (cards.set i cards[j])[j] = cards[j] := by
      rw [List.getElem_set]; split <;> rfl
    rw [h1]
    have h2 := List.boole_getElem_le_count c cards i hi
    split <;> split <;> simp_all
  · exact List.Perm.refl _

theorem swap_length (cards : List Card) (i j : Nat) : (swap cards i j).length = cards.length :=
  (swap_perm cards i j).length_eq

theorem swap_in_range (cards : List Card) (i j : Nat) (hi : i < cards.length)
    (hj : j < cards.length) : swap cards i j = (cards.set i cards[j]).set j cards[i] := by
  unfold swap
  rw [List.getElem?_eq_getElem hi, List.getElem?_eq_getElem hj]

/-- Every draw of the shuffle loop gives an index that the swap can use: at
index `i` of a list with more than `i` cards the drawn `j` is at most `i`. -/
theorem shuffleStep_in_range (E : Env) (acc : List Card × E.RandState) (i : Nat)
    (hi : i < acc.1.length) :
    (E.Intn acc.2 (i + 1)).1 < acc.1.length ∧
    (shuffleStep E acc i).1.length = acc.1.length :=
  ⟨Nat.lt_of_lt_of_le (E.Intn_lt acc.2 (i + 1) (Nat.succ_pos i)) hi, swap_length _ _ _⟩

theorem shuffle_fold_perm (E : Env) (is : List Nat) (acc : List Card × E.RandState) :
    (is.foldl (shuffleStep E) acc).1.Perm acc.1 := by
  induction is generalizing acc with
  | nil => exact List.Perm.refl _
  | cons i is ih =>
    rw [List.foldl_cons]
    exact (ih _).trans (swap_perm _ _ _)

theorem shuffle_perm (E : Env) (cards : List Card) (s : E.RandState) :
    (shuffle E cards s).1.Perm cards :=
  shuffle_fold_perm E _ (cards, s)

theorem freshCards_eq_product :
    freshCards = (List.product suits ranks).map (fun p => newCard p.1 p.2) := by decide

theorem freshCards_faces_nodup : (freshCards.map (fun c => c.Status.AtProvider.Face)).Nodup := by
  decide

theorem freshCards_face_eq :
    ∀ c ∈ freshCards, c.Status.AtProvider.Face = c.Status.AtProvider.Suit ++ c.Status.AtProvider.Rank := by
  decide

theorem deckClient_rebuild (E : Env) (name : String) (creds : Bytes) (decks : Decks)
    (rng : E.RandState) (cc : cardCredentials)
    (hempty : (decks.lookup name).Cards = []) (hparse : E.Unmarshal creds = .ok cc) :
    deckClient E name creds decks rng =
      (.ok (), decks.store name { decks.lookup name with Cards := (shuffle E freshCards (E.Seed cc.Seed)).1 },
        (shuffle E freshCards (E.Seed cc.Seed)).2) := by
  unfold deckClient
  have hd : (match decks name with | some d0 => d0 | none => ({} : deck)) = decks.lookup name := by
    unfold Decks.lookup; cases decks name <;> rfl
  simp only [hd, hempty, hparse]
  simp

theorem Decks.lookup_store_same (decks : Decks) (name : String) (d : deck) :
    (decks.store name d).lookup name = d := by
  simp [Decks.lookup, Decks.store]

theorem Decks.lookup_store_other (decks : Decks) (name k : String) (d : deck) (h : k ≠ name) :
    (decks.store name d).lookup k = decks.lookup k := by
  simp [Decks.lookup, Decks.store, h]

theorem deckClient_parse_error (E : Env) (name : String) (creds : Bytes) (decks : Decks)
    (rng : E.RandState) (err : String)
    (hempty : (decks.lookup name).Cards = []) (hparse : E.Unmarshal creds = .error err) :
    deckClient E name creds decks rng = (.error err, decks, rng) := by
  unfold deckClient
  have hd : (match decks name with | some d0 => d0 | none => ({} : deck)) = decks.lookup name := by
    unfold Decks.lookup; cases decks name <;> rfl
  simp only [hd, hempty, hparse]
  simp

/-- C1: for every deck name whose deck is absent or empty, every state of the
random source and every credentials payload, `deckClient` succeeds exactly when
the payload parses (to any seed), and after it succeeds the deck stored under
the name has exactly 52 cards, is a permutation of the canonical product of the
4 suits and 13 ranks, has `Face = Suit ++ Rank` on every card, and has no face
twice. -/
theorem deckClient_stores_full_deck (E : Env) (name : String) (creds : Bytes) (decks : Decks)
    (rng : E.RandState)
    (hempty : decks name = none ∨ ∃ d, decks name = some d ∧ d.Cards = []) :
    ((deckClient E name creds decks rng).1 = .ok () ↔ ∃ cc, E.Unmarshal creds = .ok cc) ∧
    ((deckClient E name creds decks rng).1 = .ok () →
      ((deckClient E name creds decks rng).2.1.lookup name).Cards.length = 52 ∧
      ((deckClient E name creds decks rng).2.1.lookup name).Cards.Perm
        ((List.product suits ranks).map (fun p => newCard p.1 p.2)) ∧
      (∀ c ∈ ((deckClient E name creds decks rng).2.1.lookup name).Cards,
        c.Status.AtProvider.Face = c.Status.AtProvider.Suit ++ c.Status.AtProvider.Rank) ∧
      (((deckClient E name creds decks rng).2.1.lookup name).Cards.map
        (fun c => c.Status.AtProvider.Face)).Nodup) := by
  have he : (decks.lookup name).Cards = [] := by
    rcases hempty with h | ⟨d, h, hd⟩
    · simp [Decks.lookup, h]
    · simpa [Decks.lookup, h] using hd
  cases hparse : E.Unmarshal creds with
  | error err =>
    rw [deckClient_parse_error E name creds decks rng err he hparse]
    exact ⟨⟨fun h => (by cases h), fun ⟨_, h⟩ => (by cases h)⟩, fun h => (by cases h)⟩
  | ok cc =>
    rw [deckClient_rebuild E name creds decks rng cc he hparse]
    simp only [Decks.lookup_store_same]
    have hp := shuffle_perm E freshCards (E.Seed cc.Seed)
    refine ⟨⟨fun _ => ⟨cc, rfl⟩, fun _ => trivial⟩, fun _ => ⟨?_, ?_, ?_, ?_⟩⟩
    · rw [hp.length_eq]; rfl
    · rw [← freshCards_eq_product]; exact hp
    · intro c hc
      exact freshCards_face_eq c (hp.mem_iff.mp hc)
    · exact (hp.map _).nodup_iff.mpr freshCards_faces_nodup

/-- Witness for C1: the empty registry, the name `d` and a one-byte payload. -/
theorem deckClient_stores_full_deck_witness :
    (deckClient demoEnv "d" [42] Decks.empty (0 : Nat)).1 = .ok () ∧
    ((deckClient demoEnv "d" [42] Decks.empty (0 : Nat)).2.1.lookup "d").Cards.length = 52 ∧
    ((deckClient demoEnv "d" [42] Decks.empty (0 : Nat)).2.1.lookup "d").Cards.Perm
      ((List.product suits ranks).map (fun p => newCard p.1 p.2)) ∧
    (∀ c ∈ ((deckClient demoEnv "d" [42] Decks.empty (0 : Nat)).2.1.lookup "d").Cards,
      c.Status.AtProvider.Face = c.Status.AtProvider.Suit ++ c.Status.AtProvider.Rank) ∧
    (((deckClient demoEnv "d" [42] Decks.empty (0 : Nat)).2.1.lookup "d").Cards.map
      (fun c => c.Status.AtProvider.Face)).Nodup :=
  have h := deckClient_stores_full_deck demoEnv "d" [42] Decks.empty (0 : Nat) (Or.inl rfl)
  have hok : (deckClient demoEnv "d" [42] Decks.empty (0 : Nat)).1 = .ok () :=
    h.1.mpr ⟨{ Seed := 42 }, rfl⟩
  ⟨hok, h.2 hok⟩

/-! ### Create, Delete and the pool operations -/

/-- C2: on a registry where the resource's deck is non-empty, `Create` succeeds,
gives the resource the suit, rank and face of the front card, leaves the deck
equal to its previous tail (one card shorter, order kept), and returns
connection details whose only entry maps `Face` to the bytes of the dealt face. -/
theorem Create_deals_front_card (cr : Card) (decks : Decks)
    (hne : (decks.lookup cr.deckName).Cards ≠ []) :
    ∃ (cr' : Card) (decks' : Decks) (out : ExternalCreation),
      external.Create (.ofCard cr) decks = some (.ok out, .ofCard cr', decks') ∧
      cr'.Status.AtProvider.Suit = ((decks.lookup cr.deckName).Cards.head hne).Status.AtProvider.Suit ∧
      cr'.Status.AtProvider.Rank = ((decks.lookup cr.deckName).Cards.head hne).Status.AtProvider.Rank ∧
      cr'.Status.AtProvider.Face = ((decks.lookup cr.deckName).Cards.head hne).Status.AtProvider.Face ∧
      cr'.Spec = cr.Spec ∧ cr'.Status.Conditions = cr.Status.Conditions ∧
      (decks'.lookup cr.deckName).Cards = (decks.lookup cr.deckName).Cards.tail ∧
      (decks'.lookup cr.deckName).Cards.length + 1 = (decks.lookup cr.deckName).Cards.length ∧
      out.ConnectionDetails =
        [("Face", bytesOf ((decks.lookup cr.deckName).Cards.head hne).Status.AtProvider.Face)] := by
  obtain ⟨first, rest, hcards⟩ := List.exists_cons_of_ne_nil hne
  refine ⟨{ cr with Status := { cr.Status with AtProvider := first.Status.AtProvider } },
    decks.store cr.deckName { decks.lookup cr.deckName with Cards := rest },
    { ConnectionDetails := [("Face", bytesOf first.Status.AtProvider.Face)] }, ?_⟩
  simp only [external.Create, hcards, Decks.lookup_store_same, List.head_cons, List.tail_cons,
    List.length_cons, and_self]

/-- Witness for C2: a deck of two cards and an unallocated resource bound to it. -/
theorem Create_deals_front_card_witness :
    ∃ (cr' : Card) (decks' : Decks) (out : ExternalCreation),
      external.Create (.ofCard (unallocated "d"))
        (Decks.empty.store "d" { Cards := [newCard "♠" "2", newCard "♥" "K"] })
        = some (.ok out, .ofCard cr', decks') ∧
      cr'.Status.AtProvider.Face = "♠2" ∧
      (decks'.lookup "d").Cards = [newCard "♥" "K"] ∧
      out.ConnectionDetails = [("Face", bytesOf "♠2")] := by
  obtain ⟨cr', decks', out, h, _, _, hf, _, _, ht, _, ho⟩ :=
    Create_deals_front_card (unallocated "d")
      (Decks.empty.store "d" { Cards := [newCard "♠" "2", newCard "♥" "K"] }) (by decide)
  exact ⟨cr', decks', out, h, hf, ht, ho⟩

/-- C3: `Delete` on a Card always succeeds, leaves the observed suit, rank and
face empty, and makes the named deck its previous card sequence with the card
formerly held by the resource appended at the end (one card longer); when the
name is absent from the registry the deck becomes the singleton of that card.
(It holds for every Card, so in particular for one with a non-empty face.) -/
theorem Delete_appends_card (cr : Card) (decks : Decks) :
    ∃ (cr' : Card) (decks' : Decks),
      external.Delete (.ofCard cr) decks = (.ok (), .ofCard cr', decks') ∧
      cr'.Status.AtProvider.Suit = "" ∧ cr'.Status.AtProvider.Rank = "" ∧
      cr'.Status.AtProvider.Face = "" ∧
      (decks'.lookup cr.deckName).Cards =
        (decks.lookup cr.deckName).Cards ++ [{ Status := { AtProvider := cr.Status.AtProvider } }] ∧
      (decks'.lookup cr.deckName).Cards.length = (decks.lookup cr.deckName).Cards.length + 1 ∧
      (decks cr.deckName = none →
        (decks'.lookup cr.deckName).Cards = [{ Status := { AtProvider := cr.Status.AtProvider } }]) := by
  refine ⟨{ cr with Status := { cr.Status with AtProvider := {} } },
    decks.store cr.deckName
      { Cards := (decks.lookup cr.deckName).Cards ++ [{ Status := { AtProvider := cr.Status.AtProvider } }] },
    rfl, rfl, rfl, rfl, ?_, ?_, ?_⟩
  · rw [Decks.lookup_store_same]
  · rw [Decks.lookup_store_same]; simp
  · intro habs
    rw [Decks.lookup_store_same]
    simp [Decks.lookup, habs]

/-- Witness for C3: a resource holding the two of spades, bound to a name that
the registry does not have. -/
theorem Delete_appends_card_witness :
    ∃ (cr' : Card) (decks' : Decks),
      external.Delete (.ofCard (holding "d" "♠" "2")) Decks.empty
        = (.ok (), .ofCard cr', decks') ∧
      cr'.Status.AtProvider = {} ∧
      (decks'.lookup "d").Cards = [newCard "♠" "2"] := by
  obtain ⟨cr', decks', h, hs, hr, hf, _, _, habs⟩ :=
    Delete_appends_card (holding "d" "♠" "2") Decks.empty
  refine ⟨cr', decks', h, ?_, habs rfl⟩
  cases hobs : cr'.Status.AtProvider
  simp_all
/-- The loop of `cardClient` keeps exactly the cards whose face differs. -/
theorem cardClient_loop_eq_filter (face : String) (cards acc : List Card) :
    cards.foldl
      (fun acc card => if card.Status.AtProvider.Face ≠ face then acc ++ [card] else acc) acc
      = acc ++ cards.filter (fun card => decide (card.Status.AtProvider.Face ≠ face)) := by
  induction cards generalizing acc with
  | nil => simp
  | cons c cs ih =>
    rw [List.foldl_cons, ih]
    by_cases h : c.Status.AtProvider.Face = face <;> simp [h]

theorem cardClient_nonempty (face deckName : String) (decks : Decks)
    (hne : (decks.lookup deckName).Cards ≠ []) :
    cardClient face deckName decks =
      (.ok (), decks.store deckName
        { Cards := (decks.lookup deckName).Cards.filter
            (fun card => decide (card.Status.AtProvider.Face ≠ face)) }) := by
  unfold cardClient
  have hl : ¬ (decks.lookup deckName).Cards.length = 0 := by
    simpa [List.length_eq_zero] using hne
  simp only [hl, if_false, cardClient_loop_eq_filter, List.nil_append]

theorem cardClient_empty (face deckName : String) (decks : Decks)
    (he : (decks.lookup deckName).Cards = []) :
    cardClient face deckName decks = (.error errNoCards, decks) := by
  unfold cardClient
  simp [he]

/-- C4, as the claim states it, fails: on a non-empty deck without a card of
the given face `cardClient` returns no error. -/
theorem cardClient_absent_face_counterexample :
    (∀ c ∈ ((Decks.empty.store "d" { Cards := [newCard "♠" "2"] }).lookup "d").Cards,
      c.Status.AtProvider.Face ≠ "♥3") ∧
    (cardClient "♥3" "d" (Decks.empty.store "d" { Cards := [newCard "♠" "2"] })).1 = .ok () ∧
    (cardClient "♥3" "d" (Decks.empty.store "d" { Cards := [newCard "♠" "2"] })).1
      ≠ .error errNoCards := by
  refine ⟨by decide, rfl, ?_⟩
  intro h
  cases h

/-- C4, amended: when no undealt card of the deck has the given face,
`cardClient` fails, with the error `no cards found`, exactly when the deck is
absent or has no cards; on a non-empty deck it succeeds and stores the same
card sequence. -/
theorem cardClient_absent_face (face deckName : String) (decks : Decks)
    (habs : ∀ c ∈ (decks.lookup deckName).Cards, c.Status.AtProvider.Face ≠ face) :
    ((cardClient face deckName decks).1 = .error errNoCards ↔
      (decks.lookup deckName).Cards = []) ∧
    ((decks.lookup deckName).Cards = [] → (cardClient face deckName decks).2 = decks) ∧
    ((decks.lookup deckName).Cards ≠ [] →
      (cardClient face deckName decks).1 = .ok () ∧
      ((cardClient face deckName decks).2.lookup deckName).Cards =
        (decks.lookup deckName).Cards) := by
  by_cases he : (decks.lookup deckName).Cards = []
  · rw [cardClient_empty face deckName decks he]
    simp [he]
  · rw [cardClient_nonempty face deckName decks he]
    refine ⟨⟨fun h => (by cases h), fun h => absurd h he⟩, fun h => absurd h he, fun _ => ⟨rfl, ?_⟩⟩
    rw [Decks.lookup_store_same]
    apply List.filter_eq_self.mpr
    intro c hc
    simpa using habs c hc

/-- Witness for C4 (amended): a one-card deck and a face it does not hold. -/
theorem cardClient_absent_face_witness :
    ((cardClient "♥3" "d" (Decks.empty.store "d" { Cards := [newCard "♠" "2"] })).1
        = .error errNoCards ↔
      ((Decks.empty.store "d" { Cards := [newCard "♠" "2"] }).lookup "d").Cards = []) ∧
    (((Decks.empty.store "d" { Cards := [newCard "♠" "2"] }).lookup "d").Cards = [] →
      (cardClient "♥3" "d" (Decks.empty.store "d" { Cards := [newCard "♠" "2"] })).2
        = Decks.empty.store "d" { Cards := [newCard "♠" "2"] }) ∧
    (((Decks.empty.store "d" { Cards := [newCard "♠" "2"] }).lookup "d").Cards ≠ [] →
      (cardClient "♥3" "d" (Decks.empty.store "d" { Cards := [newCard "♠" "2"] })).1 = .ok () ∧
      ((cardClient "♥3" "d" (Decks.empty.store "d" { Cards := [newCard "♠" "2"] })).2.lookup
        "d").Cards = ((Decks.empty.store "d" { Cards := [newCard "♠" "2"] }).lookup "d").Cards) :=
  cardClient_absent_face "♥3" "d" (Decks.empty.store "d" { Cards := [newCard "♠" "2"] })
    (by decide)

/-- C5, as the claim states it, fails: on a deck that holds a card of the given
face `cardClient` removes it but returns no error. -/
theorem cardClient_present_face_counterexample :
    (∃ c ∈ ((Decks.empty.store "d" { Cards := [newCard "♠" "2", newCard "♥" "3"] }).lookup
        "d").Cards, c.Status.AtProvider.Face = "♠2") ∧
    (cardClient "♠2" "d"
      (Decks.empty.store "d" { Cards := [newCard "♠" "2", newCard "♥" "3"] })).1 = .ok () ∧
    ((cardClient "♠2" "d"
      (Decks.empty.store "d" { Cards := [newCard "♠" "2", newCard "♥" "3"] })).2.lookup
        "d").Cards = [newCard "♥" "3"] := by
  refine ⟨⟨newCard "♠" "2", by decide, by decide⟩, rfl, by decide⟩

/-- C5, amended: on a deck that holds an undealt card of the given face,
`cardClient` returns no error and stores the deck without the cards of that
face, the other cards kept in order; no card of that face remains. -/
theorem cardClient_present_face (face deckName : String) (decks : Decks)
    (hpres : ∃ c ∈ (decks.lookup deckName).Cards, c.Status.AtProvider.Face = face) :
    (cardClient face deckName decks).1 = .ok () ∧
    ((cardClient face deckName decks).2.lookup deckName).Cards =
      (decks.lookup deckName).Cards.filter (fun c => decide (c.Status.AtProvider.Face ≠ face)) ∧
    (∀ c ∈ ((cardClient face deckName decks).2.lookup deckName).Cards,
      c.Status.AtProvider.Face ≠ face) ∧
    ((cardClient face deckName decks).2.lookup deckName).Cards.length <
      (decks.lookup deckName).Cards.length := by
  obtain ⟨c, hc, hface⟩ := hpres
  have hne : (decks.lookup deckName).Cards ≠ [] := List.ne_nil_of_mem hc
  rw [cardClient_nonempty face deckName decks hne]
  simp only [Decks.lookup_store_same]
  refine ⟨trivial, trivial, ?_, ?_⟩
  · intro x hx
    simpa using (List.mem_filter.mp hx).2
  · apply List.length_filter_lt_length_iff_exists.mpr
    exact ⟨c, hc, by simp [hface]⟩

/-- Witness for C5 (amended): a two-card deck and the face of its first card. -/
theorem cardClient_present_face_witness :
    (cardClient "♠2" "d"
      (Decks.empty.store "d" { Cards := [newCard "♠" "2", newCard "♥" "3"] })).1 = .ok () ∧
    ((cardClient "♠2" "d"
      (Decks.empty.store "d" { Cards := [newCard "♠" "2", newCard "♥" "3"] })).2.lookup
        "d").Cards.length < 2 :=
  have h := cardClient_present_face "♠2" "d"
    (Decks.empty.store "d" { Cards := [newCard "♠" "2", newCard "♥" "3"] })
    ⟨newCard "♠" "2", by decide, by decide⟩
  ⟨h.1, h.2.2.2⟩

/-! ### The deck registry -/

theorem deckClient_nonempty (E : Env) (name : String) (creds : Bytes) (decks : Decks)
    (rng : E.RandState) (hne : (decks.lookup name).Cards ≠ []) :
    deckClient E name creds decks rng = (.ok (), decks, rng) := by
  unfold deckClient
  have hd : (match decks name with | some d0 => d0 | none => ({} : deck)) = decks.lookup name := by
    unfold Decks.lookup; cases decks name <;> rfl
  have hl : (decks.lookup name).Cards.length ≠ 0 := by
    simpa [List.length_eq_zero] using hne
  simp only [hd, hl, ne_eq, not_false_eq_true, if_true]

/-- C6: when the deck stored under the name has cards, `deckClient` succeeds for
every credentials payload, parsable or not, and leaves the whole registry (and
the random source) unchanged; so a second call right after the first gives the
registry of the first. -/
theorem deckClient_nonempty_unchanged (E : Env) (name : String) (creds creds' : Bytes)
    (decks : Decks) (rng : E.RandState) (hne : (decks.lookup name).Cards ≠ []) :
    (deckClient E name creds decks rng).1 = .ok () ∧
    (deckClient E name creds decks rng).2.1 = decks ∧
    (deckClient E name creds decks rng).2.2 = rng ∧
    (deckClient E name creds' (deckClient E name creds decks rng).2.1
      (deckClient E name creds decks rng).2.2).1 = .ok () ∧
    (deckClient E name creds' (deckClient E name creds decks rng).2.1
      (deckClient E name creds decks rng).2.2).2.1 = (deckClient E name creds decks rng).2.1 := by
  rw [deckClient_nonempty E name creds decks rng hne]
  simp only [deckClient_nonempty E name creds' decks rng hne, and_self]

/-- Witness for C6: a one-card deck and a payload that does not parse. -/
theorem deckClient_nonempty_unchanged_witness :
    demoEnv.Unmarshal [] = .error "unexpected end of JSON input" ∧
    (deckClient demoEnv "d" [] (Decks.empty.store "d" { Cards := [newCard "♠" "2"] })
      (7 : Nat)).1 = .ok () ∧
    (deckClient demoEnv "d" [] (Decks.empty.store "d" { Cards := [newCard "♠" "2"] })
      (7 : Nat)).2.1 = Decks.empty.store "d" { Cards := [newCard "♠" "2"] } :=
  have h := deckClient_nonempty_unchanged demoEnv "d" [] []
    (Decks.empty.store "d" { Cards := [newCard "♠" "2"] }) (7 : Nat) (by decide)
  ⟨rfl, h.1, h.2.1⟩

/-- C7: when the deck stored under a name is absent or has length 0, `deckClient`
with credentials that parse to a seed stores a full deck of 52 cards, and its
card sequence is the one a first-time creation (the name absent from the
registry) with the same seed stores, whatever the state of the random source
and of the rest of the registry. The cards held by resources are no input of
`deckClient`. -/
theorem deckClient_rebuilds_empty (E : Env) (name : String) (creds creds0 : Bytes)
    (decks decks0 : Decks) (rng rng0 : E.RandState) (cc cc0 : cardCredentials)
    (hempty : decks name = none ∨ ∃ d, decks name = some d ∧ d.Cards.length = 0)
    (hparse : E.Unmarshal creds = .ok cc)
    (hfirst : decks0 name = none) (hparse0 : E.Unmarshal creds0 = .ok cc0)
    (hseed : cc0.Seed = cc.Seed) :
    (deckClient E name creds decks rng).1 = .ok () ∧
    ((deckClient E name creds decks rng).2.1.lookup name).Cards.length = 52 ∧
    ((deckClient E name creds decks rng).2.1.lookup name).Cards =
      ((deckClient E name creds0 decks0 rng0).2.1.lookup name).Cards ∧
    ((deckClient E name creds decks rng).2.1.lookup name).Cards =
      (shuffle E freshCards (E.Seed cc.Seed)).1 := by
  have he : (decks.lookup name).Cards = [] := by
    rcases hempty with h | ⟨d, h, hd⟩
    · simp [Decks.lookup, h]
    · simpa [Decks.lookup, h, List.length_eq_zero] using hd
  have he0 : (decks0.lookup name).Cards = [] := by simp [Decks.lookup, hfirst]
  rw [deckClient_rebuild E name creds decks rng cc he hparse,
    deckClient_rebuild E name creds0 decks0 rng0 cc0 he0 hparse0]
  simp only [Decks.lookup_store_same, hseed]
  refine ⟨trivial, ?_, trivial, trivial⟩
  rw [(shuffle_perm E freshCards (E.Seed cc.Seed)).length_eq]; rfl

/-- Witness for C7: a deck entry that has been dealt out, against the empty
registry, with two different payloads carrying the same seed. -/
theorem deckClient_rebuilds_empty_witness :
    ((deckClient demoEnv "d" [42] (Decks.empty.store "d" { Cards := [] }) (7 : Nat)).2.1.lookup
      "d").Cards.length = 52 ∧
    ((deckClient demoEnv "d" [42] (Decks.empty.store "d" { Cards := [] }) (7 : Nat)).2.1.lookup
      "d").Cards =
      ((deckClient demoEnv "d" [42, 0] Decks.empty (0 : Nat)).2.1.lookup "d").Cards :=
  have h := deckClient_rebuilds_empty demoEnv "d" [42] [42, 0]
    (Decks.empty.store "d" { Cards := [] }) Decks.empty (7 : Nat) (0 : Nat)
    { Seed := 42 } { Seed := 42 } (Or.inr ⟨{ Cards := [] }, rfl, rfl⟩) rfl rfl rfl rfl
  ⟨h.2.1, h.2.2.1⟩

/-! ### Observe -/

theorem SetConditions_mem (cr : Card) (c : Condition) :
    c ∈ (cr.SetConditions c).Status.Conditions := by
  unfold Card.SetConditions
  simp only
  split
  · rename_i h
    obtain ⟨e, he, hk⟩ := List.any_eq_true.mp h
    exact List.mem_map.mpr ⟨e, he, by simp [hk]⟩
  · simp

theorem cardClient_cases (face deckName : String) (decks : Decks) :
    cardClient face deckName decks = (.error errNoCards, decks) ∨
    ∃ decks', cardClient face deckName decks = (.ok (), decks') := by
  by_cases he : (decks.lookup deckName).Cards = []
  · exact Or.inl (cardClient_empty face deckName decks he)
  · exact Or.inr ⟨_, cardClient_nonempty face deckName decks he⟩

theorem Observe_exists_upToDate (mg : Managed) (decks : Decks) (obs : ExternalObservation)
    (h : (external.Observe mg decks).1 = .ok obs) (hex : obs.ResourceExists = true) :
    obs.ResourceUpToDate = true := by
  cases mg with
  | other => simp [external.Observe] at h
  | ofCard cr =>
    unfold external.Observe at h
    by_cases hf : cr.Status.AtProvider.Face = ""
    · simp only [hf, if_true] at h
      injection h with h
      subst h
      simp at hex
    · simp only [hf, if_false] at h
      rcases cardClient_cases cr.Status.AtProvider.Face cr.deckName decks with hc | ⟨d', hc⟩
      · simp [hc] at h
      · simp only [hc] at h
        injection h with h
        subst h
        rfl

/-- C9: for a resource with a non-empty face, `Observe` returns an error exactly
when `cardClient` on the resource's deck name fails, with the same error and
with the resource and the registry unchanged; otherwise it marks the resource
Available, stores the registry of `cardClient`, and reports `ResourceExists` and
`ResourceUpToDate` both true. Whenever `Observe` reports that a resource
exists it reports it up to date. -/
theorem Observe_allocated (cr : Card) (decks : Decks)
    (hface : cr.Status.AtProvider.Face ≠ "") :
    ((∃ err, (external.Observe (.ofCard cr) decks).1 = .error err) ↔
      ∃ err, (cardClient cr.Status.AtProvider.Face cr.deckName decks).1 = .error err) ∧
    (∀ err, (cardClient cr.Status.AtProvider.Face cr.deckName decks).1 = .error err →
      external.Observe (.ofCard cr) decks = (.error err, .ofCard cr, decks)) ∧
    ((cardClient cr.Status.AtProvider.Face cr.deckName decks).1 = .ok () →
      external.Observe (.ofCard cr) decks =
        (.ok { ResourceExists := true, ResourceUpToDate := true, ConnectionDetails := [] },
          .ofCard (cr.SetConditions Available),
          (cardClient cr.Status.AtProvider.Face cr.deckName decks).2) ∧
      Available ∈ (cr.SetConditions Available).Status.Conditions ∧
      (cr.SetConditions Available).Status.AtProvider = cr.Status.AtProvider) ∧
    (∀ (mg : Managed) (ds : Decks) (obs : ExternalObservation),
      (external.Observe mg ds).1 = .ok obs → obs.ResourceExists = true →
      obs.ResourceUpToDate = true) := by
  refine ⟨?_, ?_, ?_, Observe_exists_upToDate⟩
  · rcases cardClient_cases cr.Status.AtProvider.Face cr.deckName decks with hc | ⟨d', hc⟩
    · simp [external.Observe, hface, hc]
    · simp [external.Observe, hface, hc]
  · intro err herr
    rcases cardClient_cases cr.Status.AtProvider.Face cr.deckName decks with hc | ⟨d', hc⟩
    · rw [hc] at herr
      injection herr with herr
      simp [external.Observe, hface, hc, herr]
    · rw [hc] at herr; cases herr
  · intro hok
    rcases cardClient_cases cr.Status.AtProvider.Face cr.deckName decks with hc | ⟨d', hc⟩
    · rw [hc] at hok; cases hok
    · exact ⟨by simp [external.Observe, hface, hc], SetConditions_mem cr Available, rfl⟩

/-- Witness for C9: a resource holding the two of spades against a deck that
has been dealt out: `cardClient` fails and `Observe` returns its error. -/
theorem Observe_allocated_witness :
    external.Observe (.ofCard (holding "d" "♠" "2")) Decks.empty =
      (.error errNoCards, .ofCard (holding "d" "♠" "2"), Decks.empty) :=
  (Observe_allocated (holding "d" "♠" "2") Decks.empty (by decide)).2.1 errNoCards rfl

/-! ### Create followed by Delete -/

theorem rotate_faces_ne (h : String) (t : List String) (hne : t ≠ [])
    (hnd : (h :: t).Nodup) : t ++ [h] ≠ h :: t := by
  intro heq
  cases t with
  | nil => exact hne rfl
  | cons x xs =>
    rw [List.cons_append] at heq
    injection heq with hx _
    have hmem : h ∈ x :: xs := by rw [hx]; exact List.mem_cons_self _ _
    exact (List.nodup_cons.mp hnd).1 hmem

/-- C10: `Create` followed at once by `Delete` of the same resource, on a deck
with at least one card, leaves a deck of the original length whose cards are
the previous tail followed by the dealt card (suit, rank and face of the old
head, at the end). With at least two cards of pairwise distinct faces the
sequence differs from the one before the deal; with exactly one card the
sequence is restored. The appended card is the old head itself whenever the
head carries nothing but its observed fields, as every card the controller
stores does. -/
theorem Create_then_Delete_rotates (cr : Card) (decks : Decks)
    (hne : (decks.lookup cr.deckName).Cards ≠ []) :
    ∃ (cr1 cr2 : Card) (decks1 decks2 : Decks) (out : ExternalCreation),
      external.Create (.ofCard cr) decks = some (.ok out, .ofCard cr1, decks1) ∧
      external.Delete (.ofCard cr1) decks1 = (.ok (), .ofCard cr2, decks2) ∧
      (decks2.lookup cr.deckName).Cards = (decks.lookup cr.deckName).Cards.tail ++
        [{ Status := { AtProvider := ((decks.lookup cr.deckName).Cards.head hne).Status.AtProvider } }] ∧
      (decks2.lookup cr.deckName).Cards.length = (decks.lookup cr.deckName).Cards.length ∧
      (decks2.lookup cr.deckName).Cards.map (fun c => c.Status.AtProvider) =
        ((decks.lookup cr.deckName).Cards.tail ++ [(decks.lookup cr.deckName).Cards.head hne]).map
          (fun c => c.Status.AtProvider) ∧
      (((decks.lookup cr.deckName).Cards.head hne) =
          { Status := { AtProvider := ((decks.lookup cr.deckName).Cards.head hne).Status.AtProvider } } →
        (decks2.lookup cr.deckName).Cards =
          (decks.lookup cr.deckName).Cards.tail ++ [(decks.lookup cr.deckName).Cards.head hne]) ∧
      (2 ≤ (decks.lookup cr.deckName).Cards.length →
        ((decks.lookup cr.deckName).Cards.map (fun c => c.Status.AtProvider.Face)).Nodup →
        (decks2.lookup cr.deckName).Cards.map (fun c => c.Status.AtProvider.Face) ≠
          (decks.lookup cr.deckName).Cards.map (fun c => c.Status.AtProvider.Face) ∧
        (decks2.lookup cr.deckName).Cards ≠ (decks.lookup cr.deckName).Cards) ∧
      ((decks.lookup cr.deckName).Cards.length = 1 →
        (decks2.lookup cr.deckName).Cards.map (fun c => c.Status.AtProvider) =
          (decks.lookup cr.deckName).Cards.map (fun c => c.Status.AtProvider) ∧
        (((decks.lookup cr.deckName).Cards.head hne) =
            { Status := { AtProvider := ((decks.lookup cr.deckName).Cards.head hne).Status.AtProvider } } →
          (decks2.lookup cr.deckName).Cards = (decks.lookup cr.deckName).Cards)) := by
  obtain ⟨first, rest, hcards⟩ := List.exists_cons_of_ne_nil hne
  have hlk : ∀ (d : deck) (ds : Decks), ((ds.store cr.deckName d).lookup cr.deckName) = d :=
    fun d ds => Decks.lookup_store_same ds cr.deckName d
  refine ⟨{ cr with Status := { cr.Status with AtProvider := first.Status.AtProvider } },
    { cr with Status := { cr.Status with AtProvider := {} } },
    decks.store cr.deckName { decks.lookup cr.deckName with Cards := rest },
    (decks.store cr.deckName { decks.lookup cr.deckName with Cards := rest }).store cr.deckName
      { Cards := rest ++ [{ Status := { AtProvider := first.Status.AtProvider } }] },
    { ConnectionDetails := [("Face", bytesOf first.Status.AtProvider.Face)] }, ?_, ?_, ?_⟩
  · simp only [external.Create, hcards]
  · simp only [external.Delete, Card.deckName, Decks.lookup_store_same]
  · simp only [hlk, hcards, List.head_cons, List.tail_cons]
    refine ⟨trivial, by simp, by simp, ?_, ?_, ?_⟩
    · intro hb; rw [← hb]
    · intro hlen hnd
      have hrest : rest ≠ [] := by
        intro h0; rw [h0] at hlen; simp at hlen
      have hfaces : (rest ++ [({ Status := { AtProvider := first.Status.AtProvider } } : Card)]).map
          (fun c => c.Status.AtProvider.Face) ≠
          (first :: rest).map (fun c => c.Status.AtProvider.Face) := by
        simp only [List.map_append, List.map_cons, List.map_nil]
        apply rotate_faces_ne
        · simpa using hrest
        · simpa using hnd
      exact ⟨hfaces, fun heq => hfaces (by rw [heq])⟩
    · intro hlen
      have hrest : rest = [] := by
        simpa [List.length_eq_zero] using hlen
      subst hrest
      refine ⟨by simp, ?_⟩
      intro hb
      rw [← hb]; rfl

/-- Witness for C10: a deck of two cards; after the deal and the discard the
two cards have changed places. -/
theorem Create_then_Delete_rotates_witness :
    ∃ (cr1 cr2 : Card) (decks1 decks2 : Decks) (out : ExternalCreation),
      external.Create (.ofCard (unallocated "d"))
        (Decks.empty.store "d" { Cards := [newCard "♠" "2", newCard "♥" "K"] })
        = some (.ok out, .ofCard cr1, decks1) ∧
      external.Delete (.ofCard cr1) decks1 = (.ok (), .ofCard cr2, decks2) ∧
      (decks2.lookup "d").Cards = [newCard "♥" "K", newCard "♠" "2"] ∧
      (decks2.lookup "d").Cards ≠ [newCard "♠" "2", newCard "♥" "K"] := by
  obtain ⟨cr1, cr2, decks1, decks2, out, hc, hd, hcards, _, _, _, hdiff, _⟩ :=
    Create_then_Delete_rotates (unallocated "d")
      (Decks.empty.store "d" { Cards := [newCard "♠" "2", newCard "♥" "K"] }) (by decide)
  exact ⟨cr1, cr2, decks1, decks2, out, hc, hd, hcards, (hdiff (by decide) (by decide)).2⟩

/-! ### The lifecycle invariant -/

theorem run_reachable (E : Env) (guard : World E → Action → Prop) (as : List Action)
    (w w' : World E) (hw : ReachableBy E guard w) (hg : ∀ v a, guard v a)
    (hrun : run E w as = some w') : ReachableBy E guard w' := by
  induction as generalizing w with
  | nil =>
    simp only [run, Option.some.injEq] at hrun
    exact hrun ▸ hw
  | cons a as ih =>
    unfold run at hrun
    cases hs : step E w a with
    | none => simp [hs] at hrun
    | some v =>
      simp only [hs] at hrun
      exact ih v (ReachableBy.step w v a hw (hg w a) hs) hrun

set_option maxRecDepth 1000000 in
/-- C8, as the claim states it, fails: 52 resources bound to the deck `d` are
each dealt a card by a Connect, Observe, Create pass, which empties the deck;
the Connect of the next pass rebuilds the full deck, and every face is then both
in the deck and held by a resource. -/
theorem no_duplicate_face_counterexample :
    ∃ w, run demoEnv demoWorld demoActions = some w ∧ Reachable demoEnv w ∧
      ¬ NoDuplicateFace w := by
  have hbad : (run demoEnv demoWorld demoActions).map
      (fun w => decide ((deckFaces w.decks "d" ++ heldFaces "d" w.resources).Nodup))
      = some false := by decide
  cases hrun : run demoEnv demoWorld demoActions with
  | none => simp [hrun] at hbad
  | some w =>
    refine ⟨w, rfl, ?_, ?_⟩
    · refine run_reachable demoEnv _ demoActions demoWorld w ?_ (fun _ _ => trivial) hrun
      have hinit : ∀ mg ∈ List.replicate 52 (Managed.ofCard (unallocated "d")),
          mg.unallocated := by
        intro mg hmg
        rw [List.eq_of_mem_replicate hmg]
        rfl
      exact ReachableBy.init (E := demoEnv) (0 : Nat) _ hinit
    · intro hnd
      simp only [hrun, Option.map_some', Option.some.injEq, decide_eq_false_iff_not] at hbad
      exact hbad (hnd "d")

theorem deckFaces_store_same (decks : Decks) (name : String) (d : deck) :
    deckFaces (decks.store name d) name = d.Cards.map (fun c => c.Status.AtProvider.Face) := by
  simp [deckFaces, Decks.lookup_store_same]

theorem deckFaces_store_other (decks : Decks) (name n : String) (d : deck) (h : n ≠ name) :
    deckFaces (decks.store name d) n = deckFaces decks n := by
  simp [deckFaces, Decks.lookup_store_other decks name n d h]

theorem noDuplicateFace_iff_count {E : Env} (w : World E) :
    NoDuplicateFace w ↔
      ∀ n a, (deckFaces w.decks n).count a + (heldFaces n w.resources).count a ≤ 1 := by
  unfold NoDuplicateFace
  constructor
  · intro h n a
    have := List.nodup_iff_count_le_one.mp (h n) a
    rwa [List.count_append] at this
  · intro h n
    apply List.nodup_iff_count_le_one.mpr
    intro a
    rw [List.count_append]
    exact h n a

theorem heldFaces_cons_count (n a : String) (mg : Managed) (rs : List Managed) :
    (heldFaces n (mg :: rs)).count a = (heldFace n mg).toList.count a + (heldFaces n rs).count a := by
  unfold heldFaces
  rw [List.filterMap_cons]
  cases heldFace n mg with
  | none => simp
  | some f => simp [List.count_cons]; omega

theorem heldFaces_count_set (n a : String) (rs : List Managed) (i : Nat) (mg mg' : Managed)
    (h : rs[i]? = some mg) :
    (heldFaces n (rs.set i mg')).count a + (heldFace n mg).toList.count a =
      (heldFaces n rs).count a + (heldFace n mg').toList.count a := by
  induction rs generalizing i with
  | nil => simp at h
  | cons x xs ih =>
    cases i with
    | zero =>
      simp only [List.getElem?_cons_zero, Option.some.injEq] at h
      subst h
      simp only [List.set_cons_zero, heldFaces_cons_count]
      omega
    | succ k =>
      simp only [List.getElem?_cons_succ] at h
      simp only [List.set_cons_succ, heldFaces_cons_count]
      have := ih k h
      omega

theorem heldFaces_unallocated (n : String) (rs : List Managed)
    (h : ∀ mg ∈ rs, mg.unallocated) : heldFaces n rs = [] := by
  unfold heldFaces
  apply List.filterMap_eq_nil_iff.mpr
  intro mg hmg
  have hu := h mg hmg
  cases mg with
  | other => rfl
  | ofCard cr =>
    have hf : cr.Status.AtProvider.Face = "" := by
      simp only [Managed.unallocated] at hu
      rw [hu]
    simp [heldFace, hf]

theorem deckClient_cases (E : Env) (name : String) (creds : Bytes) (decks : Decks)
    (rng : E.RandState) :
    (deckClient E name creds decks rng).2.1 = decks ∨
    ((decks.lookup name).Cards = [] ∧ ∃ (d : deck),
      d.Cards.Perm freshCards ∧ (deckClient E name creds decks rng).2.1 = decks.store name d) := by
  by_cases he : (decks.lookup name).Cards = []
  · cases hp : E.Unmarshal creds with
    | error err =>
      left
      unfold deckClient
      have hd : (match decks name with | some d0 => d0 | none => ({} : deck)) = decks.lookup name := by
        unfold Decks.lookup; cases decks name <;> rfl
      simp only [hd, he, hp]
      simp
    | ok cc =>
      right
      rw [deckClient_rebuild E name creds decks rng cc he hp]
      have hp := shuffle_perm E freshCards (E.Seed cc.Seed)
      generalize shuffle E freshCards (E.Seed cc.Seed) = r at hp ⊢
      exact ⟨he, { decks.lookup name with Cards := r.1 }, hp, rfl⟩
  · left
    rw [deckClient_nonempty E name creds decks rng he]

theorem Connect_cases (E : Env) (c : connector) (mg : Managed) (decks : Decks)
    (rng : E.RandState) :
    (c.Connect E mg decks rng).2.1 = decks ∨
    ∃ (cr : Card) (d : deck), mg = .ofCard cr ∧ (decks.lookup cr.deckName).Cards = [] ∧
      d.Cards.Perm freshCards ∧ (c.Connect E mg decks rng).2.1 = decks.store cr.deckName d := by
  cases mg with
  | other => left; rfl
  | ofCard cr =>
    unfold connector.Connect
    simp only
    cases hu : c.usage (.ofCard cr) with
    | error err => left; rfl
    | ok u =>
      simp only
      cases hk : c.kube cr.deckName with
      | error err => left; rfl
      | ok pc =>
        simp only
        have hname : pc.Name = cr.deckName := c.kube_name _ _ hk
        cases hx : c.extract pc with
        | error err => left; rfl
        | ok data =>
          simp only
          cases hn : c.newServiceFn data with
          | error err => left; rfl
          | ok v =>
            simp only
            rcases deckClient_cases E pc.Name data decks rng with h | ⟨he, d, hperm, h⟩
            · left
              rcases hdc : deckClient E pc.Name data decks rng with ⟨ret, decks', rng'⟩
              rw [hdc] at h
              cases ret <;> exact h
            · right
              refine ⟨cr, d, rfl, hname ▸ he, hperm, ?_⟩
              rcases hdc : deckClient E pc.Name data decks rng with ⟨ret, decks', rng'⟩
              rw [hdc] at h
              rw [← hname]
              cases ret <;> exact h

theorem Observe_count_le (mg : Managed) (decks : Decks) (n a : String) :
    (deckFaces (external.Observe mg decks).2.2 n).count a +
        (heldFace n (external.Observe mg decks).2.1).toList.count a ≤
      (deckFaces decks n).count a + (heldFace n mg).toList.count a := by
  cases mg with
  | other => exact Nat.le_refl _
  | ofCard cr =>
    unfold external.Observe
    by_cases hf : cr.Status.AtProvider.Face = ""
    · simp only [hf, if_true]; exact Nat.le_refl _
    · simp only [hf, if_false]
      by_cases he : (decks.lookup cr.deckName).Cards = []
      · rw [cardClient_empty _ _ _ he]
      · rw [cardClient_nonempty _ _ _ he]
        simp only
        have hkey : heldFace n (.ofCard (cr.SetConditions Available)) = heldFace n (.ofCard cr) := rfl
        rw [hkey]
        apply Nat.add_le_add_right
        by_cases hn : n = cr.deckName
        · subst hn
          rw [deckFaces_store_same]
          exact ((List.filter_sublist _).map _).count_le a
        · rw [deckFaces_store_other _ _ _ _ hn]

theorem Create_count_le (mg : Managed) (decks : Decks) (n a : String)
    (r : Except String ExternalCreation × Managed × Decks)
    (h : external.Create mg decks = some r) :
    (deckFaces r.2.2 n).count a + (heldFace n r.2.1).toList.count a ≤
      (deckFaces decks n).count a + (heldFace n mg).toList.count a := by
  cases mg with
  | other =>
    simp only [external.Create, Option.some.injEq] at h
    subst h
    exact Nat.le_refl _
  | ofCard cr =>
    unfold external.Create at h
    simp only at h
    cases hc : (decks.lookup cr.deckName).Cards with
    | nil => simp [hc] at h
    | cons first rest =>
      simp only [hc, Option.some.injEq] at h
      subst h
      simp only
      by_cases hn : n = cr.deckName
      · subst hn
        rw [deckFaces_store_same]
        have hd : deckFaces decks cr.deckName =
            first.Status.AtProvider.Face :: rest.map (fun c => c.Status.AtProvider.Face) := by
          simp [deckFaces, hc]
        rw [hd, List.count_cons]
        have hk : (heldFace cr.deckName (.ofCard
            { cr with Status := { cr.Status with AtProvider := first.Status.AtProvider } })).toList.count a
            ≤ if first.Status.AtProvider.Face == a then 1 else 0 := by
          simp only [heldFace, Card.deckName]
          split
          · simp [List.count_cons]
          · simp
        simp only at hk ⊢
        omega
      · rw [deckFaces_store_other _ _ _ _ hn]
        have hk : ∀ obs, heldFace n (.ofCard { cr with Status := { cr.Status with AtProvider := obs } })
            = none := by
          intro obs
          simp only [heldFace, Card.deckName]
          rw [if_neg]
          intro hh
          exact hn hh.1.symm
        rw [hk]
        simp

theorem Update_count_le (mg : Managed) (decks : Decks) (n a : String) :
    (deckFaces (external.Update mg decks).2.2 n).count a +
        (heldFace n (external.Update mg decks).2.1).toList.count a ≤
      (deckFaces decks n).count a + (heldFace n mg).toList.count a := by
  cases mg <;> exact Nat.le_refl _

theorem Delete_count_le (mg : Managed) (decks : Decks) (n a : String)
    (hg : ∀ cr, mg = .ofCard cr → cr.Status.AtProvider.Face ≠ "") :
    (deckFaces (external.Delete mg decks).2.2 n).count a +
        (heldFace n (external.Delete mg decks).2.1).toList.count a ≤
      (deckFaces decks n).count a + (heldFace n mg).toList.count a := by
  cases mg with
  | other => exact Nat.le_refl _
  | ofCard cr =>
    have hf := hg cr rfl
    unfold external.Delete
    simp only
    have hk : ∀ sp cs, heldFace n (.ofCard { Spec := sp, Status := { Conditions := cs, AtProvider := {} } })
        = none := by
      intro sp cs
      simp [heldFace]
    rw [hk]
    by_cases hn : n = cr.deckName
    · subst hn
      have hname : cr.Spec.ProviderConfigReference.Name = cr.deckName := rfl
      rw [hname, deckFaces_store_same]
      have hold : heldFace cr.deckName (.ofCard cr) = some cr.Status.AtProvider.Face := by
        simp [heldFace, hf]
      rw [hold]
      simp [deckFaces, List.count_cons]
    · have hname : cr.Spec.ProviderConfigReference.Name = cr.deckName := rfl
      rw [hname, deckFaces_store_other _ _ _ _ hn]
      simp

theorem count_step_le (n a : String) (rs : List Managed) (i : Nat) (mg mg' : Managed)
    (faces faces' : List String) (hi : rs[i]? = some mg)
    (hop : faces'.count a + (heldFace n mg').toList.count a ≤
      faces.count a + (heldFace n mg).toList.count a)
    (hinv : faces.count a + (heldFaces n rs).count a ≤ 1) :
    faces'.count a + (heldFaces n (rs.set i mg')).count a ≤ 1 := by
  have := heldFaces_count_set n a rs i mg mg' hi
  omega

/-- C8, amended: in every state reached from the empty registry and unallocated
resources by Connect, Observe, Create, Update and Delete calls in which Connect
meets a deck without cards only while no resource bound to that deck name holds
a card, and Delete is made only on a resource with a non-empty face, no face
appears twice among a deck's undealt cards together with the cards held by the
resources bound to that deck name. -/
theorem guarded_no_duplicate_face (E : Env) (w : World E)
    (h : ReachableBy E guarded w) : NoDuplicateFace w := by
  induction h with
  | init rng resources hun =>
    rw [noDuplicateFace_iff_count]
    intro n a
    simp [deckFaces, Decks.lookup, Decks.empty, heldFaces_unallocated n resources hun]
  | step w w' act _ hg hs ih =>
    rw [noDuplicateFace_iff_count] at ih ⊢
    intro n a
    cases act with
    | connect c i =>
      simp only [step] at hs
      cases hi : w.resources[i]? with
      | none => simp [hi] at hs
      | some mg =>
        simp only [hi, Option.some.injEq] at hs
        subst hs
        simp only
        rcases Connect_cases E c mg w.decks w.rand with hc | ⟨cr, d, hmg, hempty, hperm, hc⟩
        · rw [hc]; exact ih n a
        · rw [hc]
          subst hmg
          have hheld := hg cr hi hempty
          by_cases hn : n = cr.deckName
          · subst hn
            rw [deckFaces_store_same, hheld]
            have hnd : (d.Cards.map (fun c => c.Status.AtProvider.Face)).Nodup :=
              (hperm.map _).nodup_iff.mpr freshCards_faces_nodup
            have := List.nodup_iff_count_le_one.mp hnd a
            simpa using this
          · rw [deckFaces_store_other _ _ _ _ hn]
            exact ih n a
    | observe i =>
      simp only [step] at hs
      cases hi : w.resources[i]? with
      | none => simp [hi] at hs
      | some mg =>
        simp only [hi, Option.some.injEq] at hs
        subst hs
        exact count_step_le n a _ i mg _ _ _ hi (Observe_count_le mg w.decks n a) (ih n a)
    | create i =>
      simp only [step] at hs
      cases hi : w.resources[i]? with
      | none => simp [hi] at hs
      | some mg =>
        simp only [hi] at hs
        cases hc : external.Create mg w.decks with
        | none => simp [hc] at hs
        | some r =>
          simp only [hc, Option.some.injEq] at hs
          subst hs
          exact count_step_le n a _ i mg _ _ _ hi (Create_count_le mg w.decks n a r hc) (ih n a)
    | update i =>
      simp only [step] at hs
      cases hi : w.resources[i]? with
      | none => simp [hi] at hs
      | some mg =>
        simp only [hi, Option.some.injEq] at hs
        subst hs
        exact count_step_le n a _ i mg _ _ _ hi (Update_count_le mg w.decks n a) (ih n a)
    | delete i =>
      simp only [step] at hs
      cases hi : w.resources[i]? with
      | none => simp [hi] at hs
      | some mg =>
        simp only [hi, Option.some.injEq] at hs
        subst hs
        have hg' : ∀ cr, mg = .ofCard cr → cr.Status.AtProvider.Face ≠ "" :=
          fun cr hcr => hg cr (hcr ▸ hi)
        exact count_step_le n a _ i mg _ _ _ hi (Delete_count_le mg w.decks n a hg') (ih n a)

set_option maxRecDepth 1000000 in
/-- Witness for C8 (amended): the world after one deal pass on the first of two
resources is reached by guarded calls; the resource holds the card that was at
the front of the new deck. -/
theorem guarded_no_duplicate_face_witness :
    NoDuplicateFace ((run demoEnv demoPair (dealPass 0)).getD demoPair) ∧
    heldFaces "d" ((run demoEnv demoPair (dealPass 0)).getD demoPair).resources = ["♣5"] ∧
    (deckFaces ((run demoEnv demoPair (dealPass 0)).getD demoPair).decks "d").length = 51 := by
  have h0 : ReachableBy demoEnv guarded demoPair :=
    ReachableBy.init (E := demoEnv) (0 : Nat) _ (by
      intro mg hmg
      simp only [List.mem_cons, List.mem_singleton, or_self, List.mem_nil_iff, or_false] at hmg
      rw [hmg]; rfl)
  have g1 : guarded demoPair (.connect demoConnector 0) := by
    intro cr hcr _
    simp only [demoPair, List.getElem?_cons_zero, Option.some.injEq, Managed.ofCard.injEq] at hcr
    subst hcr
    rfl
  have h1 := ReachableBy.step demoPair
    ((step demoEnv demoPair (.connect demoConnector 0)).getD demoPair) _ h0 g1 rfl
  have h2 := ReachableBy.step _
    ((step demoEnv ((step demoEnv demoPair (.connect demoConnector 0)).getD demoPair)
      (.observe 0)).getD demoPair) (.observe 0) h1 trivial rfl
  have h3 := ReachableBy.step _
    ((run demoEnv demoPair (dealPass 0)).getD demoPair) (.create 0) h2 trivial rfl
  exact ⟨guarded_no_duplicate_face demoEnv _ h3, by decide, by decide⟩

/-- Without the condition on Delete the invariant of the guarded runs fails:
two Deletes of an unallocated resource store two cards with the empty face. -/
theorem delete_unallocated_twice :
    (run demoEnv demoPair [.delete 0, .delete 0]).map (fun w => deckFaces w.decks "d")
      = some ["", ""] := by
  decide

/-! ### Frame conditions, determinism and the no-op methods -/

/-- C12: for every face, `cardClient` on a deck name that is absent from the
registry, or whose deck has no undealt cards, fails with the error
`no cards found` and returns the registry unchanged: no entry is created or
modified. -/
theorem cardClient_no_cards (face deckName : String) (decks : Decks)
    (hempty : decks deckName = none ∨ ∃ d, decks deckName = some d ∧ d.Cards.length = 0) :
    cardClient face deckName decks = (.error errNoCards, decks) := by
  apply cardClient_empty
  rcases hempty with h | ⟨d, h, hd⟩
  · simp [Decks.lookup, h]
  · simpa [Decks.lookup, h, List.length_eq_zero] using hd

/-- Witness for C12: a name the registry does not have; in particular no entry
appears under it. -/
theorem cardClient_no_cards_witness :
    cardClient "♠2" "d" Decks.empty = (.error errNoCards, Decks.empty) ∧
    (cardClient "♠2" "d" Decks.empty).2 "d" = none :=
  have h := cardClient_no_cards "♠2" "d" Decks.empty (Or.inl rfl)
  ⟨h, by rw [h]; rfl⟩

/-- C13: materialization depends on the seed alone: for any two registries, any
two names whose decks are absent or empty, any two states of the random source
(whatever was shuffled before) and any two payloads that parse to the same
seed, both calls of `deckClient` succeed and store the same card sequence. -/
theorem deckClient_deterministic (E : Env) (name1 name2 : String) (creds1 creds2 : Bytes)
    (decks1 decks2 : Decks) (rng1 rng2 : E.RandState) (cc1 cc2 : cardCredentials)
    (hempty1 : decks1 name1 = none ∨ ∃ d, decks1 name1 = some d ∧ d.Cards = [])
    (hempty2 : decks2 name2 = none ∨ ∃ d, decks2 name2 = some d ∧ d.Cards = [])
    (hparse1 : E.Unmarshal creds1 = .ok cc1) (hparse2 : E.Unmarshal creds2 = .ok cc2)
    (hseed : cc1.Seed = cc2.Seed) :
    (deckClient E name1 creds1 decks1 rng1).1 = .ok () ∧
    (deckClient E name2 creds2 decks2 rng2).1 = .ok () ∧
    ((deckClient E name1 creds1 decks1 rng1).2.1.lookup name1).Cards =
      ((deckClient E name2 creds2 decks2 rng2).2.1.lookup name2).Cards ∧
    (deckClient E name1 creds1 decks1 rng1).2.2 = (deckClient E name2 creds2 decks2 rng2).2.2 := by
  have he : ∀ (decks : Decks) (name : String),
      (decks name = none ∨ ∃ d, decks name = some d ∧ d.Cards = []) →
      (decks.lookup name).Cards = [] := by
    intro decks name h
    rcases h with h | ⟨d, h, hd⟩
    · simp [Decks.lookup, h]
    · simpa [Decks.lookup, h] using hd
  rw [deckClient_rebuild E name1 creds1 decks1 rng1 cc1 (he _ _ hempty1) hparse1,
    deckClient_rebuild E name2 creds2 decks2 rng2 cc2 (he _ _ hempty2) hparse2]
  simp only [Decks.lookup_store_same, hseed, and_self]

/-- Witness for C13: the deck `a` in the empty registry and the dealt-out deck
`b` next to a third deck, from different source states and payloads of seed 42. -/
theorem deckClient_deterministic_witness :
    ((deckClient demoEnv "a" [42] Decks.empty (0 : Nat)).2.1.lookup "a").Cards =
      ((deckClient demoEnv "b" [42, 7]
        ((Decks.empty.store "c" { Cards := [newCard "♠" "2"] }).store "b" { Cards := [] })
        (99 : Nat)).2.1.lookup "b").Cards :=
  (deckClient_deterministic demoEnv "a" "b" [42] [42, 7] Decks.empty
    ((Decks.empty.store "c" { Cards := [newCard "♠" "2"] }).store "b" { Cards := [] })
    (0 : Nat) (99 : Nat) { Seed := 42 } { Seed := 42 } (Or.inl rfl)
    (Or.inr ⟨{ Cards := [] }, rfl, rfl⟩) rfl rfl rfl).2.2.1

/-- C15: for every registry, `Observe` on a resource whose face is empty returns
no error and `ResourceExists = false`, and changes neither the resource nor the
registry. -/
theorem Observe_unallocated (cr : Card) (decks : Decks)
    (hface : cr.Status.AtProvider.Face = "") :
    external.Observe (.ofCard cr) decks =
      (.ok { ResourceExists := false, ResourceUpToDate := false, ConnectionDetails := [] },
        .ofCard cr, decks) := by
  simp [external.Observe, hface]

/-- Witness for C15: an unallocated resource against a non-empty deck. -/
theorem Observe_unallocated_witness :
    (external.Observe (.ofCard (unallocated "d"))
      (Decks.empty.store "d" { Cards := [newCard "♠" "2"] })).1 =
      .ok { ResourceExists := false, ResourceUpToDate := false, ConnectionDetails := [] } :=
  congrArg Prod.fst (Observe_unallocated (unallocated "d")
    (Decks.empty.store "d" { Cards := [newCard "♠" "2"] }) rfl)

/-- C16: for every Card and registry, `Update` returns no error and empty
connection details, and leaves the resource (its observed status included) and
the whole registry unchanged. -/
theorem Update_noop (cr : Card) (decks : Decks) :
    external.Update (.ofCard cr) decks = (.ok { ConnectionDetails := [] }, .ofCard cr, decks) :=
  rfl

/-- C20: `deckClient`, `cardClient`, `Create` and `Delete` invoked for the deck
name `A` leave the registry entry of every other name `B` as it was, whatever
they return. -/
theorem other_decks_unchanged (E : Env) (A B : String) (hAB : B ≠ A) (decks : Decks) :
    (∀ (creds : Bytes) (rng : E.RandState), (deckClient E A creds decks rng).2.1 B = decks B) ∧
    (∀ (face : String), (cardClient face A decks).2 B = decks B) ∧
    (∀ (cr : Card) (r : Except String ExternalCreation × Managed × Decks), cr.deckName = A →
      external.Create (.ofCard cr) decks = some r → r.2.2 B = decks B) ∧
    (∀ (cr : Card), cr.deckName = A → (external.Delete (.ofCard cr) decks).2.2 B = decks B) := by
  refine ⟨?_, ?_, ?_, ?_⟩
  · intro creds rng
    rcases deckClient_cases E A creds decks rng with h | ⟨_, d, _, h⟩
    · rw [h]
    · rw [h]; simp [Decks.store, hAB]
  · intro face
    rcases cardClient_cases face A decks with h | ⟨d', h⟩
    · rw [h]
    · by_cases he : (decks.lookup A).Cards = []
      · rw [cardClient_empty face A decks he]
      · rw [cardClient_nonempty face A decks he]; simp [Decks.store, hAB]
  · intro cr r hname hcreate
    subst hname
    unfold external.Create at hcreate
    simp only at hcreate
    cases hc : (decks.lookup cr.deckName).Cards with
    | nil => simp [hc] at hcreate
    | cons first rest =>
      simp only [hc, Option.some.injEq] at hcreate
      subst hcreate
      simp [Decks.store, hAB]
  · intro cr hname
    subst hname
    have hB : B ≠ cr.Spec.ProviderConfigReference.Name := hAB
    simp [external.Delete, Decks.store, hB]

/-- Witness for C20: a discard into the deck `a` and a validation of it, next
to a deck `b`. -/
theorem other_decks_unchanged_witness :
    (external.Delete (.ofCard (holding "a" "♠" "2"))
      ((Decks.empty.store "a" { Cards := [newCard "♠" "3"] }).store "b"
        { Cards := [newCard "♥" "3"] })).2.2 "b" = some { Cards := [newCard "♥" "3"] } ∧
    (cardClient "♠3" "a"
      ((Decks.empty.store "a" { Cards := [newCard "♠" "3"] }).store "b"
        { Cards := [newCard "♥" "3"] })).2 "b" = some { Cards := [newCard "♥" "3"] } :=
  have h := other_decks_unchanged demoEnv "a" "b" (by decide)
    ((Decks.empty.store "a" { Cards := [newCard "♠" "3"] }).store "b"
      { Cards := [newCard "♥" "3"] })
  ⟨h.2.2.2 (holding "a" "♠" "2") rfl, h.2.1 "♠3"⟩

/-! ### Connect, then Observe, then Create -/

theorem deckClient_ok_nonempty (E : Env) (name : String) (creds : Bytes) (decks : Decks)
    (rng : E.RandState) (hok : (deckClient E name creds decks rng).1 = .ok ()) :
    ((deckClient E name creds decks rng).2.1.lookup name).Cards ≠ [] := by
  by_cases he : (decks.lookup name).Cards = []
  · cases hp : E.Unmarshal creds with
    | error err =>
      rw [deckClient_parse_error E name creds decks rng err he hp] at hok
      cases hok
    | ok cc =>
      rw [deckClient_rebuild E name creds decks rng cc he hp, Decks.lookup_store_same]
      intro h0
      have hlen := (shuffle_perm E freshCards (E.Seed cc.Seed)).length_eq
      simp only at h0
      rw [h0] at hlen
      exact absurd hlen (by decide)
  · rw [deckClient_nonempty E name creds decks rng he]
    exact he

theorem Create_isSome_of_nonempty (cr : Card) (decks : Decks)
    (hne : (decks.lookup cr.deckName).Cards ≠ []) :
    (external.Create (.ofCard cr) decks).isSome = true := by
  obtain ⟨first, rest, hc⟩ := List.exists_cons_of_ne_nil hne
  simp [external.Create, hc]

theorem Connect_ok_deckClient (E : Env) (c : connector) (cr : Card) (decks : Decks)
    (rng : E.RandState) (hok : (c.Connect E (.ofCard cr) decks rng).1 = .ok ()) :
    ∃ data, (deckClient E cr.deckName data decks rng).1 = .ok () ∧
      (c.Connect E (.ofCard cr) decks rng).2.1 = (deckClient E cr.deckName data decks rng).2.1 := by
  unfold connector.Connect at hok ⊢
  simp only at hok ⊢
  cases hu : c.usage (.ofCard cr) with
  | error err => simp [hu] at hok
  | ok u =>
    simp only [hu] at hok ⊢
    cases hk : c.kube cr.deckName with
    | error err => simp [hk] at hok
    | ok pc =>
      simp only [hk] at hok ⊢
      have hname : pc.Name = cr.deckName := c.kube_name _ _ hk
      cases hx : c.extract pc with
      | error err => simp [hx] at hok
      | ok data =>
        simp only [hx] at hok ⊢
        cases hn : c.newServiceFn data with
        | error err => simp [hn] at hok
        | ok v =>
          simp only [hn] at hok ⊢
          rw [hname] at hok ⊢
          refine ⟨data, ?_⟩
          rcases hdc : deckClient E cr.deckName data decks rng with ⟨ret, decks', rng'⟩
          rw [hdc] at hok
          cases ret with
          | error err => simp at hok
          | ok u => exact ⟨rfl, rfl⟩

/-- C14: for every registry, deck name and credentials that parse to a seed,
`deckClient` succeeds and the deck then stored under the name has cards; an
Observe of an unallocated resource bound to that name changes nothing, and the
Create that follows does not reach the out-of-range access. The same holds
after any successful `Connect` of the resource. -/
theorem Create_after_deckClient_safe (E : Env) (name : String) (creds : Bytes) (decks : Decks)
    (rng : E.RandState) (cc : cardCredentials) (hparse : E.Unmarshal creds = .ok cc) :
    (deckClient E name creds decks rng).1 = .ok () ∧
    ((deckClient E name creds decks rng).2.1.lookup name).Cards ≠ [] ∧
    (∀ cr : Card, cr.deckName = name → cr.Status.AtProvider.Face = "" →
      (external.Observe (.ofCard cr) (deckClient E name creds decks rng).2.1).2 =
        (.ofCard cr, (deckClient E name creds decks rng).2.1) ∧
      (external.Create (external.Observe (.ofCard cr) (deckClient E name creds decks rng).2.1).2.1
        (external.Observe (.ofCard cr) (deckClient E name creds decks rng).2.1).2.2).isSome
          = true) ∧
    (∀ (c : connector) (cr : Card) (ds : Decks) (s : E.RandState),
      (c.Connect E (.ofCard cr) ds s).1 = .ok () → cr.Status.AtProvider.Face = "" →
      ((c.Connect E (.ofCard cr) ds s).2.1.lookup cr.deckName).Cards ≠ [] ∧
      (external.Create (external.Observe (.ofCard cr) (c.Connect E (.ofCard cr) ds s).2.1).2.1
        (external.Observe (.ofCard cr) (c.Connect E (.ofCard cr) ds s).2.1).2.2).isSome = true) := by
  have hok : (deckClient E name creds decks rng).1 = .ok () := by
    by_cases he : (decks.lookup name).Cards = []
    · rw [deckClient_rebuild E name creds decks rng cc he hparse]
    · rw [deckClient_nonempty E name creds decks rng he]
  have hne := deckClient_ok_nonempty E name creds decks rng hok
  refine ⟨hok, hne, ?_, ?_⟩
  · intro cr hname hface
    subst hname
    rw [Observe_unallocated cr _ hface]
    exact ⟨rfl, Create_isSome_of_nonempty cr _ hne⟩
  · intro c cr ds s hc hface
    obtain ⟨data, hd, heq⟩ := Connect_ok_deckClient E c cr ds s hc
    have hne' := deckClient_ok_nonempty E cr.deckName data ds s hd
    rw [← heq] at hne'
    rw [Observe_unallocated cr _ hface]
    exact ⟨hne', Create_isSome_of_nonempty cr _ hne'⟩

/-- Witness for C14: the first Connect of an unallocated resource, in the empty
registry, followed by Observe and Create. -/
theorem Create_after_deckClient_safe_witness :
    (deckClient demoEnv "d" [42] Decks.empty (0 : Nat)).1 = .ok () ∧
    (external.Create
      (external.Observe (.ofCard (unallocated "d"))
        (deckClient demoEnv "d" [42] Decks.empty (0 : Nat)).2.1).2.1
      (external.Observe (.ofCard (unallocated "d"))
        (deckClient demoEnv "d" [42] Decks.empty (0 : Nat)).2.1).2.2).isSome = true :=
  have h := Create_after_deckClient_safe demoEnv "d" [42] Decks.empty (0 : Nat) { Seed := 42 } rfl
  ⟨h.1, (h.2.2.1 (unallocated "d") rfl rfl).2⟩

/-! ### Validation as repair -/

theorem Create_some_head (cr : Card) (decks : Decks)
    (r : Except String ExternalCreation × Managed × Decks)
    (h : external.Create (.ofCard cr) decks = some r) :
    ∃ first rest, (decks.lookup cr.deckName).Cards = first :: rest ∧
      r = (.ok { ConnectionDetails := [("Face", bytesOf first.Status.AtProvider.Face)] },
        .ofCard { cr with Status := { cr.Status with AtProvider := first.Status.AtProvider } },
        decks.store cr.deckName { decks.lookup cr.deckName with Cards := rest }) := by
  unfold external.Create at h
  simp only at h
  cases hc : (decks.lookup cr.deckName).Cards with
  | nil => simp [hc] at h
  | cons first rest =>
    simp only [hc, Option.some.injEq] at h
    exact ⟨first, rest, rfl, h.symm⟩

theorem cardClient_face_gone (face deckName : String) (decks : Decks) :
    ∀ c ∈ ((cardClient face deckName decks).2.lookup deckName).Cards,
      (cardClient face deckName decks).1 = .ok () → c.Status.AtProvider.Face ≠ face := by
  intro c hc hok
  by_cases he : (decks.lookup deckName).Cards = []
  · rw [cardClient_empty face deckName decks he] at hok
    cases hok
  · rw [cardClient_nonempty face deckName decks he, Decks.lookup_store_same] at hc
    simpa using (List.mem_filter.mp hc).2

/-- C18: on a non-empty deck `cardClient` succeeds and stores exactly the
previous deck without the cards of the given face, the other cards in their
order; no card of that face remains. So after a successful `Observe` of a
resource holding the face `f`, a `Create` on the same deck name that deals a
card never deals the face `f`. -/
theorem cardClient_removes_face (face deckName : String) (decks : Decks)
    (hne : (decks.lookup deckName).Cards ≠ []) :
    (cardClient face deckName decks).1 = .ok () ∧
    ((cardClient face deckName decks).2.lookup deckName).Cards =
      (decks.lookup deckName).Cards.filter (fun c => decide (c.Status.AtProvider.Face ≠ face)) ∧
    (∀ c ∈ ((cardClient face deckName decks).2.lookup deckName).Cards,
      c.Status.AtProvider.Face ≠ face) ∧
    (∀ (cr cr2 : Card) (ds : Decks) (obs : ExternalObservation)
      (r : Except String ExternalCreation × Managed × Decks),
      cr.Status.AtProvider.Face ≠ "" →
      (external.Observe (.ofCard cr) ds).1 = .ok obs →
      cr2.deckName = cr.deckName →
      external.Create (.ofCard cr2) (external.Observe (.ofCard cr) ds).2.2 = some r →
      ∃ cr2', r.2.1 = .ofCard cr2' ∧
        cr2'.Status.AtProvider.Face ≠ cr.Status.AtProvider.Face) := by
  refine ⟨?_, ?_, ?_, ?_⟩
  · rw [cardClient_nonempty face deckName decks hne]
  · rw [cardClient_nonempty face deckName decks hne, Decks.lookup_store_same]
  · rw [cardClient_nonempty face deckName decks hne, Decks.lookup_store_same]
    intro c hc
    simpa using (List.mem_filter.mp hc).2
  · intro cr cr2 ds obs r hface hobs hname hcreate
    have hcases := cardClient_cases cr.Status.AtProvider.Face cr.deckName ds
    have hgone := cardClient_face_gone cr.Status.AtProvider.Face cr.deckName ds
    rcases hcases with hc | ⟨ds', hc⟩
    · simp [external.Observe, hface, hc] at hobs
    · have hds : (external.Observe (.ofCard cr) ds).2.2 = ds' := by
        simp [external.Observe, hface, hc]
      rw [hds] at hcreate
      rw [hc] at hgone
      obtain ⟨first, rest, hcards, hr⟩ := Create_some_head cr2 ds' r hcreate
      subst hr
      refine ⟨_, rfl, ?_⟩
      apply hgone first _ rfl
      rw [← hname, hcards]
      exact List.mem_cons_self _ _

/-- Witness for C18: the deck holds the two of spades twice around another
card; validating that face leaves the other card alone. -/
theorem cardClient_removes_face_witness :
    ((cardClient "♠2" "d" (Decks.empty.store "d"
      { Cards := [newCard "♠" "2", newCard "♥" "3", newCard "♠" "2"] })).2.lookup "d").Cards
      = [newCard "♥" "3"] :=
  (cardClient_removes_face "♠2" "d" (Decks.empty.store "d"
    { Cards := [newCard "♠" "2", newCard "♥" "3", newCard "♠" "2"] }) (by decide)).2.1.trans
    (by decide)

/-! ### Deal, discard, deal again -/

theorem deals_front (name : String) (crs : List Card) :
    ∀ (cs rest : List Card) (decks : Decks), (∀ cr ∈ crs, cr.deckName = name) →
      (decks.lookup name).Cards = cs ++ rest → crs.length = cs.length →
      ∃ decks', deals decks crs = some (cs.map (fun c => c.Status.AtProvider), decks') ∧
        (decks'.lookup name).Cards = rest := by
  induction crs with
  | nil =>
    intro cs rest decks _ hcards hlen
    have hcs : cs = [] := List.length_eq_zero.mp hlen.symm
    subst hcs
    exact ⟨decks, rfl, hcards⟩
  | cons cr crs ih =>
    intro cs rest decks hbound hcards hlen
    cases cs with
    | nil => simp at hlen
    | cons c cs =>
      have hname : cr.deckName = name := hbound cr (List.mem_cons_self _ _)
      have hnext := ih cs rest
        (decks.store name { decks.lookup name with Cards := cs ++ rest })
        (fun x hx => hbound x (List.mem_cons_of_mem _ hx))
        (by rw [Decks.lookup_store_same])
        (by simpa using hlen)
      obtain ⟨decks', hd, hrest⟩ := hnext
      refine ⟨decks', ?_, hrest⟩
      simp only [deals, external.Create, hname, hcards, List.cons_append, hd, List.map_cons]

theorem cons_cons_of_length {α : Type} (l : List α) (n : Nat) (h : l.length = n + 2) :
    ∃ x y tl, l = x :: y :: tl ∧ tl.length = n := by
  match l, h with
  | x :: y :: tl, h => exact ⟨x, y, tl, rfl, by simpa using h⟩

theorem Create_of_cons (cr : Card) (decks : Decks) (first : Card) (rest : List Card)
    (h : (decks.lookup cr.deckName).Cards = first :: rest) :
    external.Create (.ofCard cr) decks =
      some (.ok { ConnectionDetails := [("Face", bytesOf first.Status.AtProvider.Face)] },
        .ofCard { cr with Status := { cr.Status with AtProvider := first.Status.AtProvider } },
        decks.store cr.deckName { decks.lookup cr.deckName with Cards := rest }) := by
  simp only [external.Create, h]

theorem Delete_of_card (cr : Card) (decks : Decks) :
    external.Delete (.ofCard cr) decks =
      (.ok (), .ofCard { cr with Status := { cr.Status with AtProvider := {} } },
        decks.store cr.deckName
          { Cards := (decks.lookup cr.deckName).Cards ++
              [{ Status := { AtProvider := cr.Status.AtProvider } }] }) := rfl

/-- On any deck of pairwise distinct faces: two deals, the discard of the first
card dealt, and then as many deals as cards are left; the discarded card comes
back last. -/
theorem deal_discard_cycle (name : String) (decks : Decks) (a b : Card) (crs : List Card)
    (ha : a.deckName = name) (hb : b.deckName = name) (hcrs : ∀ cr ∈ crs, cr.deckName = name)
    (hlen : (decks.lookup name).Cards.length = crs.length + 1)
    (hcrs1 : 1 ≤ crs.length)
    (hnd : ((decks.lookup name).Cards.map (fun c => c.Status.AtProvider.Face)).Nodup) :
    ∃ (a1 b1 a2 : Card) (decks1 decks2 decks3 decks4 : Decks) (out1 out2 : ExternalCreation)
      (os : List CardObservation),
      external.Create (.ofCard a) decks = some (.ok out1, .ofCard a1, decks1) ∧
      external.Create (.ofCard b) decks1 = some (.ok out2, .ofCard b1, decks2) ∧
      b1.Status.AtProvider.Face ≠ a1.Status.AtProvider.Face ∧
      external.Delete (.ofCard a1) decks2 = (.ok (), .ofCard a2, decks3) ∧
      deals decks3 crs = some (os ++ [a1.Status.AtProvider], decks4) ∧
      os.length + 1 = crs.length ∧
      (∀ o ∈ os, o.Face ≠ a1.Status.AtProvider.Face) ∧
      (decks4.lookup name).Cards = [] := by
  obtain ⟨x, y, tl, hcards, htl⟩ := cons_cons_of_length (decks.lookup name).Cards (crs.length - 1)
    (by omega)
  rw [hcards] at hnd
  simp only [List.map_cons, List.nodup_cons, List.mem_cons, List.mem_map, not_or] at hnd
  obtain ⟨⟨hxy, hxtl⟩, _, _⟩ := hnd
  subst ha
  have h1 := Create_of_cons a decks x (y :: tl) hcards
  have l1 := Decks.lookup_store_same decks a.deckName
    { decks.lookup a.deckName with Cards := y :: tl }
  generalize decks.store a.deckName { decks.lookup a.deckName with Cards := y :: tl } = D1
    at h1 l1
  have h2 := Create_of_cons b D1 y tl (by rw [hb, l1])
  have l2 := Decks.lookup_store_same D1 b.deckName { D1.lookup b.deckName with Cards := tl }
  generalize D1.store b.deckName { D1.lookup b.deckName with Cards := tl } = D2 at h2 l2
  have h3 := Delete_of_card
    { a with Status := { a.Status with AtProvider := x.Status.AtProvider } } D2
  have l3 := Decks.lookup_store_same D2 a.deckName
    { Cards := (D2.lookup a.deckName).Cards ++ [{ Status := { AtProvider := x.Status.AtProvider } }] }
  have hname : ({ a with Status := { a.Status with AtProvider := x.Status.AtProvider } } : Card).deckName
      = a.deckName := rfl
  rw [hname] at h3
  have l2' : (D2.lookup a.deckName).Cards = tl := by rw [← hb, l2]
  rw [l2'] at h3 l3
  generalize D2.store a.deckName
    { Cards := tl ++ [{ Status := { AtProvider := x.Status.AtProvider } }] } = D3 at h3 l3
  obtain ⟨D4, hdeals, hrest⟩ := deals_front a.deckName crs
    (tl ++ [{ Status := { AtProvider := x.Status.AtProvider } }]) [] D3 hcrs
    (by rw [l3, List.append_nil]) (by simp; omega)
  refine ⟨_, _, _, D1, D2, D3, D4, _, _, tl.map (fun c => c.Status.AtProvider),
    h1, h2, ?_, h3, ?_, ?_, ?_, hrest⟩
  · exact fun h => hxy h.symm
  · rw [hdeals]; simp
  · simp; omega
  · intro o ho h
    obtain ⟨c, hc, rfl⟩ := List.mem_map.mp ho
    exact hxtl ⟨c, hc, h⟩

/-- C11: for every seed, on a freshly materialized deck the first `Create`
records a card C1 and the second a card C2 of another face; after the `Delete`
that discards C1, the next 50 `Create` calls each record a card whose face
differs from that of C1, and the 51st records C1; the deck is then empty. -/
theorem fresh_deck_deal_discard (E : Env) (name : String) (creds : Bytes) (decks : Decks)
    (rng : E.RandState) (cc : cardCredentials)
    (hempty : decks name = none ∨ ∃ d, decks name = some d ∧ d.Cards = [])
    (hparse : E.Unmarshal creds = .ok cc)
    (a b : Card) (crs : List Card) (ha : a.deckName = name) (hb : b.deckName = name)
    (hcrs : ∀ cr ∈ crs, cr.deckName = name) (hlen : crs.length = 51) :
    (deckClient E name creds decks rng).1 = .ok () ∧
    ∃ (a1 b1 a2 : Card) (decks1 decks2 decks3 decks4 : Decks) (out1 out2 : ExternalCreation)
      (os : List CardObservation),
      external.Create (.ofCard a) (deckClient E name creds decks rng).2.1 =
        some (.ok out1, .ofCard a1, decks1) ∧
      external.Create (.ofCard b) decks1 = some (.ok out2, .ofCard b1, decks2) ∧
      b1.Status.AtProvider.Face ≠ a1.Status.AtProvider.Face ∧
      external.Delete (.ofCard a1) decks2 = (.ok (), .ofCard a2, decks3) ∧
      deals decks3 crs = some (os ++ [a1.Status.AtProvider], decks4) ∧
      os.length = 50 ∧
      (∀ o ∈ os, o.Face ≠ a1.Status.AtProvider.Face) ∧
      (decks4.lookup name).Cards = [] := by
  have he : (decks.lookup name).Cards = [] := by
    rcases hempty with h | ⟨d, h, hd⟩
    · simp [Decks.lookup, h]
    · simpa [Decks.lookup, h] using hd
  have hp := shuffle_perm E freshCards (E.Seed cc.Seed)
  have hcards : ((deckClient E name creds decks rng).2.1.lookup name).Cards =
      (shuffle E freshCards (E.Seed cc.Seed)).1 := by
    rw [deckClient_rebuild E name creds decks rng cc he hparse, Decks.lookup_store_same]
  have hok : (deckClient E name creds decks rng).1 = .ok () := by
    rw [deckClient_rebuild E name creds decks rng cc he hparse]
  generalize shuffle E freshCards (E.Seed cc.Seed) = sh at hp hcards
  generalize (deckClient E name creds decks rng).2.1 = decks0 at hcards
  have hl : (decks0.lookup name).Cards.length = crs.length + 1 := by
    rw [hcards, hp.length_eq, hlen]; rfl
  have hnd : ((decks0.lookup name).Cards.map (fun c => c.Status.AtProvider.Face)).Nodup := by
    rw [hcards]
    exact (hp.map _).nodup_iff.mpr freshCards_faces_nodup
  obtain ⟨a1, b1, a2, d1, d2, d3, d4, o1, o2, os, h1, h2, h3, h4, h5, h6, h7, h8⟩ :=
    deal_discard_cycle name decks0 a b crs ha hb hcrs hl (by omega) hnd
  exact ⟨hok, a1, b1, a2, d1, d2, d3, d4, o1, o2, os, h1, h2, h3, h4, h5, by omega, h7, h8⟩

/-- Witness for C11: the deck `d` built in the empty registry and 53 unallocated
resources bound to it. -/
theorem fresh_deck_deal_discard_witness :
    ∃ (a1 b1 a2 : Card) (decks1 decks2 decks3 decks4 : Decks) (out1 out2 : ExternalCreation)
      (os : List CardObservation),
      external.Create (.ofCard (unallocated "d"))
        (deckClient demoEnv "d" [42] Decks.empty (0 : Nat)).2.1 =
        some (.ok out1, .ofCard a1, decks1) ∧
      external.Create (.ofCard (unallocated "d")) decks1 = some (.ok out2, .ofCard b1, decks2) ∧
      b1.Status.AtProvider.Face ≠ a1.Status.AtProvider.Face ∧
      external.Delete (.ofCard a1) decks2 = (.ok (), .ofCard a2, decks3) ∧
      deals decks3 (List.replicate 51 (unallocated "d")) =
        some (os ++ [a1.Status.AtProvider], decks4) ∧
      os.length = 50 ∧
      (∀ o ∈ os, o.Face ≠ a1.Status.AtProvider.Face) ∧
      (decks4.lookup "d").Cards = [] :=
  (fresh_deck_deal_discard demoEnv "d" [42] Decks.empty (0 : Nat) { Seed := 42 } (Or.inl rfl) rfl
    (unallocated "d") (unallocated "d") (List.replicate 51 (unallocated "d")) rfl rfl
    (fun cr hcr => by rw [List.eq_of_mem_replicate hcr]; rfl) (List.length_replicate _ _)).2

/-! ### The draws of the shuffle -/

theorem shuffle_fold_logged (E : Env) (is : List Nat) (cards : List Card) (s : E.RandState)
    (log : List Nat) :
    is.foldl (shuffleStep E.logged) (cards, (s, log)) =
      ((is.foldl (shuffleStep E) (cards, s)).1,
        ((is.foldl (shuffleStep E) (cards, s)).2, log ++ is.map (fun i => i + 1))) := by
  induction is generalizing cards s log with
  | nil => simp
  | cons i is ih =>
    simp only [List.foldl_cons, List.map_cons]
    have hstep : shuffleStep E.logged (cards, (s, log)) i =
        ((shuffleStep E (cards, s) i).1, ((shuffleStep E (cards, s) i).2, log ++ [i + 1])) := rfl
    rw [hstep, ih]
    simp

theorem swap_getElem? (cards : List Card) (i j : Nat) (hi : i < cards.length)
    (hj : j < cards.length) :
    (swap cards i j)[i]? = cards[j]? ∧ (swap cards i j)[j]? = cards[i]? ∧
    ∀ k, k ≠ i → k ≠ j → (swap cards i j)[k]? = cards[k]? := by
  rw [swap_in_range cards i j hi hj]
  refine ⟨?_, ?_, ?_⟩
  · by_cases hij : i = j
    · subst hij; simp [List.getElem?_set, hi]
    · have hji : ¬ j = i := fun h => hij h.symm
      simp [List.getElem?_set, hij, hji, hi, hj]
  · simp [List.getElem?_set, hi, hj]
  · intro k hki hkj
    have h1 : ¬ i = k := fun h => hki h.symm
    have h2 : ¬ j = k := fun h => hkj h.symm
    simp [List.getElem?_set, h1, h2]
theorem shuffle_logged (E : Env) (cards : List Card) (s : E.RandState) (log : List Nat) :
    shuffle E.logged cards (s, log) =
      ((shuffle E cards s).1,
        ((shuffle E cards s).2, log ++ (List.range cards.length).map (fun i => i + 1))) :=
  shuffle_fold_logged E (List.range cards.length) cards s log

theorem shuffleStep_zero (E : Env) (cards : List Card) (s : E.RandState) :
    shuffleStep E (cards, s) 0 = (cards, (E.Intn s 1).2) := by
  have hj : (E.Intn s 1).1 = 0 := Nat.lt_one_iff.mp (E.Intn_lt s 1 Nat.one_pos)
  unfold shuffleStep
  simp only [Nat.zero_add, hj]
  cases cards with
  | nil => rfl
  | cons c cs => simp [swap]

set_option maxRecDepth 1000000 in
/-- C17, as the claim states it, fails: in the shuffle of a new deck the source
is asked 52 times, not 51, and the first draw is the one for index 0, with
bound 1. -/
theorem shuffle_draws_counterexample :
    (deckClient demoEnv.logged "d" [42] Decks.empty ((0 : Nat), [])).2.2.2.length = 52 ∧
    (deckClient demoEnv.logged "d" [42] Decks.empty ((0 : Nat), [])).2.2.2.head? = some 1 ∧
    (deckClient demoEnv.logged "d" [42] Decks.empty ((0 : Nat), [])).2.2.2
      = (List.range 52).map (fun i => i + 1) := by
  decide

/-- C17, amended: the shuffle inside `deckClient` visits the index `i` from 0
to 51 in ascending order and nothing else: it makes exactly 52 draws from the
seeded source, the draw for index `i` being `Intn (i + 1)`, so taken from
`[0, i]`, and swaps the elements at `i` and the drawn `j`. The draw for index 0
is made as well: it can only give 0 and its swap leaves the cards as they are,
but it advances the source. -/
theorem deckClient_shuffle_draws (E : Env) (name : String) (creds : Bytes) (decks : Decks)
    (rng : E.RandState) (log : List Nat) (cc : cardCredentials)
    (hempty : decks name = none ∨ ∃ d, decks name = some d ∧ d.Cards = [])
    (hparse : E.Unmarshal creds = .ok cc) :
    (deckClient E.logged name creds decks (rng, log)).2.2.2 =
      (List.range 52).map (fun i => i + 1) ∧
    ((deckClient E.logged name creds decks (rng, log)).2.1.lookup name).Cards =
      ((deckClient E name creds decks rng).2.1.lookup name).Cards ∧
    ((deckClient E name creds decks rng).2.1.lookup name).Cards =
      ((List.range 52).foldl (shuffleStep E) (freshCards, E.Seed cc.Seed)).1 ∧
    (∀ (acc : List Card × E.RandState) (i : Nat), i < acc.1.length →
      (E.Intn acc.2 (i + 1)).1 ≤ i ∧
      (shuffleStep E acc i).2 = (E.Intn acc.2 (i + 1)).2 ∧
      (shuffleStep E acc i).1[i]? = acc.1[(E.Intn acc.2 (i + 1)).1]? ∧
      (shuffleStep E acc i).1[(E.Intn acc.2 (i + 1)).1]? = acc.1[i]? ∧
      ∀ k, k ≠ i → k ≠ (E.Intn acc.2 (i + 1)).1 → (shuffleStep E acc i).1[k]? = acc.1[k]?) ∧
    (∀ (cards : List Card) (s : E.RandState),
      shuffleStep E (cards, s) 0 = (cards, (E.Intn s 1).2)) := by
  have he : (decks.lookup name).Cards = [] := by
    rcases hempty with h | ⟨d, h, hd⟩
    · simp [Decks.lookup, h]
    · simpa [Decks.lookup, h] using hd
  have hparse' : E.logged.Unmarshal creds = .ok cc := hparse
  have hseed : E.logged.Seed cc.Seed = (E.Seed cc.Seed, []) := rfl
  refine ⟨?_, ?_, ?_, ?_, shuffleStep_zero E⟩
  · rw [deckClient_rebuild E.logged name creds decks (rng, log) cc he hparse', hseed,
      shuffle_logged]
    simp only [List.nil_append]
    rfl
  · rw [deckClient_rebuild E.logged name creds decks (rng, log) cc he hparse', hseed,
      shuffle_logged, deckClient_rebuild E name creds decks rng cc he hparse]
  · rw [deckClient_rebuild E name creds decks rng cc he hparse]
    simp only [Decks.lookup_store_same]
    rfl
  · intro acc i hi
    have hj : (E.Intn acc.2 (i + 1)).1 < i + 1 := E.Intn_lt acc.2 (i + 1) (Nat.succ_pos i)
    have hjl : (E.Intn acc.2 (i + 1)).1 < acc.1.length := by omega
    have hsw := swap_getElem? acc.1 i (E.Intn acc.2 (i + 1)).1 hi hjl
    exact ⟨by omega, rfl, hsw.1, hsw.2.1, hsw.2.2⟩

/-- Witness for C17 (amended): the deck `d` built in the empty registry; the
record of the draws has 52 entries. -/
theorem deckClient_shuffle_draws_witness :
    (deckClient demoEnv.logged "d" [42] Decks.empty ((0 : Nat), [9])).2.2.2 =
      (List.range 52).map (fun i => i + 1) :=
  (deckClient_shuffle_draws demoEnv "d" [42] Decks.empty (0 : Nat) [9] { Seed := 42 }
    (Or.inl rfl) rfl).1

/-! ### The cards of the pool -/

theorem cardUniverse_spec : ∀ o ∈ cardUniverse,
    o.Face ≠ "" ∧ o.Face = o.Suit ++ o.Rank ∧ o.Face ∈ universeFaces := by
  decide

theorem mem_cardUniverse_of_perm (cards : List Card) (hp : cards.Perm freshCards) :
    ∀ c ∈ cards, c.Status.AtProvider ∈ cardUniverse := by
  intro c hc
  exact List.mem_map.mpr ⟨c, hp.mem_iff.mp hc, rfl⟩

theorem lookup_store_mem (decks : Decks) (name n : String) (d : deck) (c : Card)
    (P : Card → Prop) (hold : ∀ x ∈ (decks.lookup n).Cards, P x) (hnew : ∀ x ∈ d.Cards, P x)
    (hc : c ∈ ((decks.store name d).lookup n).Cards) : P c := by
  by_cases hn : n = name
  · subst hn
    rw [Decks.lookup_store_same] at hc
    exact hnew c hc
  · rw [Decks.lookup_store_other decks name n d hn] at hc
    exact hold c hc

theorem pool_invariant (E : Env) (w : World E) (h : PoolReachable E w) :
    (∀ name, ∀ c ∈ (w.decks.lookup name).Cards, c.Status.AtProvider ∈ cardUniverse) ∧
    (∀ mg ∈ w.resources, mg.wellFormed) := by
  induction h with
  | init rng resources hwf =>
    refine ⟨?_, hwf⟩
    intro name c hc
    simp [Decks.lookup, Decks.empty] at hc
  | materialize w name creds _ ih =>
    refine ⟨?_, ih.2⟩
    intro n c hc
    simp only at hc
    rcases deckClient_cases E name creds w.decks w.rand with hd | ⟨_, d, hperm, hd⟩
    · rw [hd] at hc
      exact ih.1 n c hc
    · rw [hd] at hc
      exact lookup_store_mem w.decks name n d c _ (ih.1 n)
        (mem_cardUniverse_of_perm d.Cards hperm) hc
  | validate w face name _ ih =>
    refine ⟨?_, ih.2⟩
    intro n c hc
    simp only at hc
    by_cases he : (w.decks.lookup name).Cards = []
    · rw [cardClient_empty face name w.decks he] at hc
      exact ih.1 n c hc
    · rw [cardClient_nonempty face name w.decks he] at hc
      exact lookup_store_mem w.decks name n _ c _ (ih.1 n)
        (fun x hx => ih.1 name x (List.mem_of_mem_filter hx)) hc
  | deal w i mg r _ hi hc ih =>
    cases mg with
    | other =>
      simp only [external.Create, Option.some.injEq] at hc
      subst hc
      refine ⟨ih.1, ?_⟩
      intro m hm
      rcases List.mem_or_eq_of_mem_set hm with h1 | h1
      · exact ih.2 m h1
      · rw [h1]; trivial
    | ofCard cr =>
      obtain ⟨first, rest, hcards, hr⟩ := Create_some_head cr w.decks r hc
      subst hr
      have hfirst : first.Status.AtProvider ∈ cardUniverse :=
        ih.1 cr.deckName first (by rw [hcards]; exact List.mem_cons_self _ _)
      refine ⟨?_, ?_⟩
      · intro n c hcin
        exact lookup_store_mem w.decks cr.deckName n _ c _ (ih.1 n)
          (fun x hx => ih.1 cr.deckName x (by rw [hcards]; exact List.mem_cons_of_mem _ hx)) hcin
      · intro m hm
        rcases List.mem_or_eq_of_mem_set hm with h1 | h1
        · exact ih.2 m h1
        · rw [h1]; exact Or.inr hfirst
  | discard w i cr _ hi hf ih =>
    have hcr : (Managed.ofCard cr).wellFormed := ih.2 _ (List.getElem?_mem hi)
    have hvalid : cr.Status.AtProvider ∈ cardUniverse := by
      rcases hcr with h0 | h1
      · exact absurd h0 hf
      · exact h1
    rw [Delete_of_card]
    refine ⟨?_, ?_⟩
    · intro n c hcin
      refine lookup_store_mem w.decks cr.deckName n _ c _ (ih.1 n) ?_ hcin
      intro x hx
      rcases List.mem_append.mp hx with h1 | h1
      · exact ih.1 cr.deckName x h1
      · rw [List.mem_singleton.mp h1]; exact hvalid
    · intro m hm
      rcases List.mem_or_eq_of_mem_set hm with h1 | h1
      · exact ih.2 m h1
      · rw [h1]; exact Or.inl rfl

/-- C19: in every state reached from the empty registry by `deckClient`,
`cardClient`, `Create` and `Delete` (the last only on resources whose face is
non-empty), every undealt card of every deck has a non-empty face, equal to its
suit followed by its rank, that is one of the 52 faces of the universe. Hence
every successful `Create` records a non-empty face, and the `Observe` that
follows never reports that the resource does not exist. -/
theorem pool_cards_valid (E : Env) (w : World E) (h : PoolReachable E w) :
    (∀ name, ∀ c ∈ (w.decks.lookup name).Cards,
      c.Status.AtProvider.Face ≠ "" ∧
      c.Status.AtProvider.Face = c.Status.AtProvider.Suit ++ c.Status.AtProvider.Rank ∧
      c.Status.AtProvider.Face ∈ universeFaces) ∧
    (∀ (cr : Card) (out : ExternalCreation) (mg' : Managed) (decks' : Decks),
      external.Create (.ofCard cr) w.decks = some (.ok out, mg', decks') →
      ∃ cr', mg' = .ofCard cr' ∧ cr'.Status.AtProvider.Face ≠ "" ∧
        ∀ obs, (external.Observe mg' decks').1 = .ok obs → obs.ResourceExists = true) := by
  have hinv := (pool_invariant E w h).1
  refine ⟨fun name c hc => cardUniverse_spec _ (hinv name c hc), ?_⟩
  intro cr out mg' decks' hcreate
  obtain ⟨first, rest, hcards, hr⟩ := Create_some_head cr w.decks _ hcreate
  injection hr with _ hr
  injection hr with hmg hdecks
  have hfirst : first.Status.AtProvider.Face ≠ "" :=
    (cardUniverse_spec _ (hinv cr.deckName first
      (by rw [hcards]; exact List.mem_cons_self _ _))).1
  refine ⟨_, hmg, hfirst, ?_⟩
  intro obs hobs
  rw [hmg] at hobs
  unfold external.Observe at hobs
  simp only [hfirst, if_false] at hobs
  rcases cardClient_cases first.Status.AtProvider.Face cr.deckName decks' with hc | ⟨d', hc⟩
  · have hc' : cardClient first.Status.AtProvider.Face
        ({ cr with Status := { cr.Status with AtProvider := first.Status.AtProvider } } : Card).deckName
        decks' = (.error errNoCards, decks') := hc
    simp [hc'] at hobs
  · have hc' : cardClient first.Status.AtProvider.Face
        ({ cr with Status := { cr.Status with AtProvider := first.Status.AtProvider } } : Card).deckName
        decks' = (.ok (), d') := hc
    simp only [hc'] at hobs
    injection hobs with hobs
    rw [← hobs]

/-- Witness for C19: the deck `d` built in the empty registry and the two of
spades discarded into it by a resource that held it: the card is in the deck
and its face is one of the universe. -/
theorem pool_cards_valid_witness :
    newCard "♠" "2" ∈ ((external.Delete (.ofCard (holding "d" "♠" "2"))
      (deckClient demoEnv "d" [42] Decks.empty (0 : Nat)).2.1).2.2.lookup "d").Cards ∧
    (newCard "♠" "2").Status.AtProvider.Face ≠ "" ∧
    (newCard "♠" "2").Status.AtProvider.Face =
      (newCard "♠" "2").Status.AtProvider.Suit ++ (newCard "♠" "2").Status.AtProvider.Rank ∧
    (newCard "♠" "2").Status.AtProvider.Face ∈ universeFaces :=
  have hmem : newCard "♠" "2" ∈ ((external.Delete (.ofCard (holding "d" "♠" "2"))
      (deckClient demoEnv "d" [42] Decks.empty (0 : Nat)).2.1).2.2.lookup "d").Cards := by
    rw [Delete_of_card]
    exact List.mem_append_right _ (List.mem_singleton.mpr rfl)
  ⟨hmem, (pool_cards_valid demoEnv _
    (PoolReachable.discard _ 0 (holding "d" "♠" "2")
      (PoolReachable.materialize _ "d" [42]
        (PoolReachable.init (E := demoEnv) (0 : Nat) [.ofCard (holding "d" "♠" "2")]
          (fun mg hmg => by
            rw [List.mem_singleton.mp hmg]
            exact Or.inr (by decide))))
      rfl (by decide))).1 "d" (newCard "♠" "2") hmem⟩

end Cards
